import Mathlib

/-!
# Instance persistence of the migration manager

A shallow embedding of `internal/db/instance.go`: the functions `AddInstance`,
`GetInstance`, `GetAllInstances`, `DeleteInstance`, `UpdateInstance`,
`getInstancesHelper`, `GetAllInstancesByState` and `UpdateInstanceStatus`, written
as state-passing functions over an explicit database value.

Each SQL statement of the source is one definition over the table contents
(`queryBatchid`, `execInsert`, `execUpdate`, ...).  The Go functions are built from
these statement by statement, with every `if err != nil { return err }` kept.

What the source file uses but does not define is a parameter (`Env`): the constant
`INVALID_DATABASE_ID`, the method `IsMigrating`, and the library encoders
(`time.Time.MarshalText` / `UnmarshalText`, `json.Marshal` / `json.Unmarshal`).
The table constraints come from the specification of the data model, since the
schema is not part of the source; they are marked as such.

Further embedded: `Source.Validate` of `internal/migration/source_model.go`,
`Transaction` and `rollback` of `internal/db/query/transation.go`,
`TLS.CheckPermission` of `internal/server/auth/driver_tls.go`, and `CheckTrustState` of
`internal/server/util/tls.go`.  The target service, of which the source tree has only the
tests, is modelled from the specification.
-/

namespace MigrationManager

/-! ## Data model -/

/-- A `uuid.UUID`, which is a `[16]byte`. -/
abbrev UUID := { bs : List (Fin 256) // bs.length = 16 }

/-- The all-zero identifier `[16]byte{}` that `getInstancesHelper` compares against. -/
def UUID.Nil : UUID := ⟨List.replicate 16 0, by simp⟩

/-- An identifier whose first byte is `b` and whose other bytes are zero. -/
def UUID.ofByte (b : Fin 256) : UUID := ⟨b :: List.replicate 15 0, by simp⟩

/-- A byte slice, as `json.RawMessage`; also the bytes of a Go string, which need not be
valid UTF-8. -/
abbrev Bytes := List (Fin 256)

/-- Modelled from the spec: the element type of `Disks` (`api.InstanceDiskInfo`, not in the
source tree): "disks[] (name, differential-sync-capable flag, size)".  The name is a Go
string, kept as its bytes. -/
structure InstanceDiskInfo where
  Name : Bytes
  DifferentialSyncSupported : Bool
  SizeInBytes : Int
  deriving DecidableEq

/-- Modelled from the spec: the element type of `NICs` (`api.InstanceNICInfo`, not in the
source tree): "nics[] (network, hardware address)".  The two fields are Go strings, kept as
their bytes. -/
structure InstanceNICInfo where
  Network : Bytes
  Hwaddr : Bytes
  deriving DecidableEq

/-- The fields of `instance.InternalInstance` that `instance.go` reads and writes.
`Time` stands for `time.Time`.  A Go slice is `none` when nil and `some l` otherwise, so
that a nil slice and an empty slice are different values. -/
structure InternalInstance (Time : Type) where
  UUID : UUID
  InventoryPath : String
  MigrationStatus : Int
  MigrationStatusString : String
  LastUpdateFromSource : Time
  LastManualUpdate : Time
  SourceID : Int
  TargetID : Int
  BatchID : Int
  Name : String
  Architecture : String
  OS : String
  OSVersion : String
  Disks : Option (List InstanceDiskInfo)
  NICs : Option (List InstanceNICInfo)
  NumberCPUs : Int
  MemoryInMiB : Int
  UseLegacyBios : Bool
  SecureBootEnabled : Bool
  TPMPresent : Bool
  NeedsDiskImport : Bool
  deriving DecidableEq

/-- A value of the interface `instance.Instance`: either a `*InternalInstance`, or some
other implementation, of which only the getters used before the type assertion matter. -/
inductive Instance (Time : Type) where
  | internal (i : InternalInstance Time)
  | other (uuid : UUID) (name : String)
  deriving DecidableEq

/-- Getter `GetUUID` of the interface. -/
def Instance.GetUUID {Time : Type} : Instance Time → UUID
  | .internal i => i.UUID
  | .other u _ => u

/-- Getter `GetName` of the interface. -/
def Instance.GetName {Time : Type} : Instance Time → String
  | .internal i => i.Name
  | .other _ n => n

/-- One row of table `instances`, with the columns of the `INSERT` statement.  The two
time stamps and the two arrays are stored in their marshalled text form. -/
structure Row where
  uuid : UUID
  inventorypath : String
  migrationstatus : Int
  migrationstatusstring : String
  lastupdatefromsource : String
  lastmanualupdate : String
  sourceid : Int
  targetid : Int
  batchid : Int
  name : String
  architecture : String
  os : String
  osversion : String
  disks : String
  nics : String
  numbercpus : Int
  memoryinmib : Int
  uselegacybios : Bool
  securebootenabled : Bool
  tpmpresent : Bool
  needsdiskimport : Bool
  deriving DecidableEq

/-- The database as far as `instance.go` touches it: table `instances`, the `(id, name)`
pairs of table `batches`, the ids of table `sources`, the ids of table `targets`, and the
uuids that have a row in the overrides table. -/
structure DB where
  instances : List Row
  batches : List (Int × String)
  sources : List Int
  targets : List Int
  overrides : List UUID
  deriving DecidableEq

/-- The error values of `instance.go`, one constructor per place that creates one. -/
inductive Err where
  /-- Created by `fmt.Errorf("Wasn't given an InternalInstance?")` -/
  | notInternalInstance
  /-- Created by `fmt.Errorf("No instance exists with UUID '%s'", UUID)` -/
  | noInstanceExists (u : UUID)
  /-- Created by `fmt.Errorf("Cannot delete instance '%s': Either assigned to a batch or currently migrating", name)` -/
  | cannotDelete (name : String)
  /-- Created by `fmt.Errorf("Instance with UUID '%s' doesn't exist, can't delete", UUID)` -/
  | cantDelete (u : UUID)
  /-- Created by `fmt.Errorf("Cannot update instance '%s' while assigned to batch '%s'", name, batchName)` -/
  | cannotUpdate (name : String) (batchName : String)
  /-- Created by `fmt.Errorf("Instance with UUID '%s' doesn't exist, can't update", UUID)` -/
  | cantUpdate (u : UUID)
  /-- The value `sql.ErrNoRows`, returned by `row.Scan` when the query selected nothing. -/
  | sqlNoRows
  /-- A constraint violation reported by the database for a statement. -/
  | sqlConstraint (what : String)
  /-- An error returned by a marshalling or unmarshalling library call. -/
  | library (msg : String)
  deriving DecidableEq

/-- Modelled from the spec: the error classes of the taxonomy that the errors of `instance.go`
fall into ("`NotFound` (zero rows affected on update/delete)", "`ConstraintViolation`
(uniqueness/reference conflict)", "`OperationNotPermitted` (structurally valid request
forbidden by business rule — e.g., delete-while-referenced, update-while-assigned)").  The
source itself attaches no class to its errors. -/
inductive ErrClass where
  | ValidationError
  | NotFound
  | ConstraintViolation
  | OperationNotPermitted
  | Other
  deriving DecidableEq

/-- Modelled from the spec: the class of each error, by the rule that produced it. -/
def Err.errClass : Err → ErrClass
  | .noInstanceExists _ => .NotFound
  | .cantDelete _ => .NotFound
  | .cantUpdate _ => .NotFound
  | .sqlNoRows => .NotFound
  | .sqlConstraint _ => .ConstraintViolation
  | .cannotDelete _ => .OperationNotPermitted
  | .cannotUpdate _ _ => .OperationNotPermitted
  | .notInternalInstance => .Other
  | .library _ => .Other

/-- What `instance.go` uses without defining it. -/
structure Env (Time : Type) where
  /-- The constant `internal.INVALID_DATABASE_ID`. -/
  INVALID_DATABASE_ID : Int
  /-- The method `IsMigrating` of an instance. -/
  IsMigrating : InternalInstance Time → Bool
  /-- Library call `time.Time.MarshalText`. -/
  marshalTime : Time → Except String String
  /-- Library call `time.Time.UnmarshalText`, into a zero `time.Time`. -/
  unmarshalTime : String → Except String Time
  /-- Library call `json.Marshal` of the disks slice. -/
  marshalDisks : Option (List InstanceDiskInfo) → Except String String
  /-- Library call `json.Unmarshal` into the nil disks slice of a fresh instance. -/
  unmarshalDisks : String → Except String (Option (List InstanceDiskInfo))
  /-- Library call `json.Marshal` of the NICs slice. -/
  marshalNICs : Option (List InstanceNICInfo) → Except String String
  /-- Library call `json.Unmarshal` into the nil NICs slice of a fresh instance. -/
  unmarshalNICs : String → Except String (Option (List InstanceNICInfo))

/-- Equality of results is decidable when equality of values and of errors is. -/
instance instDecidableEqExcept {ε α : Type} [DecidableEq ε] [DecidableEq α] :
    DecidableEq (Except ε α)
  | .ok a, .ok b => if h : a = b then isTrue (by rw [h]) else isFalse (fun h2 => h (by cases h2; rfl))
  | .error a, .error b =>
      if h : a = b then isTrue (by rw [h]) else isFalse (fun h2 => h (by cases h2; rfl))
  | .ok _, .error _ => isFalse (fun h => by cases h)
  | .error _, .ok _ => isFalse (fun h => by cases h)

/-! ## The SQL statements -/

/-- Strict order of two strings by their characters, as the default collation compares text. -/
def textLT : List Char → List Char → Bool
  | [], [] => false
  | [], _ :: _ => true
  | _ :: _, [] => false
  | a :: as, b :: bs => if a.toNat < b.toNat then true else if b.toNat < a.toNat then false else textLT as bs

/-- Insert a row into a list that is ordered by name: after the rows whose name is strictly
before its name, and before every other row. -/
def insertByName (r : Row) : List Row → List Row
  | [] => [r]
  | x :: xs => if textLT x.name.data r.name.data then x :: insertByName r xs else r :: x :: xs

/-- The clause `ORDER BY name`.  Rows of equal name stay in the order of the table. -/
def orderByName : List Row → List Row
  | [] => []
  | r :: rs => insertByName r (orderByName rs)

/-- The rows selected by `SELECT ... FROM instances WHERE uuid=?`. -/
def selectByUUID (db : DB) (u : UUID) : List Row :=
  db.instances.filter (fun r => decide (r.uuid = u))

/-- The rows selected by `SELECT ... FROM instances ORDER BY name`. -/
def selectAllOrdered (db : DB) : List Row :=
  orderByName db.instances

/-- The value scanned from `SELECT batchid FROM instances WHERE uuid=?` with `QueryRow`:
the column of the first selected row, if any. -/
def queryBatchid (db : DB) (u : UUID) : Option Int :=
  (db.instances.find? (fun r => decide (r.uuid = u))).map (fun r => r.batchid)

/-- The value scanned from `SELECT name FROM batches WHERE id=?` with `QueryRow`. -/
def queryBatchName (db : DB) (id : Int) : Option String :=
  (db.batches.find? (fun b => decide (b.1 = id))).map (fun b => b.2)

/-- Modelled from the spec: the constraints of table `instances`, whose schema is not in the
source tree: "uuid (globally unique, immutable)", "a duplicate UUID fails with a
`ConstraintViolation`", "target_id (nullable until assigned)", "an instance's `source_id` and
`target_id` must reference existing rows" and "`Create(instance)` fails ... if the referenced
source does not exist".  `noID` is the value that the code stores for no id
(`INVALID_DATABASE_ID`); it stands for the null of the spec.
The statement is `INSERT INTO instances (...) VALUES(...)`; a failing statement changes
nothing. -/
def execInsert (noID : Int) (db : DB) (r : Row) : Except Err DB :=
  if db.instances.any (fun x => decide (x.uuid = r.uuid)) then
    .error (.sqlConstraint "UNIQUE constraint failed: instances.uuid")
  else if ¬ r.sourceid ∈ db.sources then
    .error (.sqlConstraint "FOREIGN KEY constraint failed")
  else if r.targetid ≠ noID ∧ ¬ r.targetid ∈ db.targets then
    .error (.sqlConstraint "FOREIGN KEY constraint failed")
  else
    .ok { db with instances := db.instances ++ [r] }

/-- The assignment list of `UPDATE instances SET inventorypath=?,...,needsdiskimport=?`
applied to one row: every column but `uuid` is taken from `n`. -/
def setColumns (n : Row) (r : Row) : Row :=
  { r with
    inventorypath := n.inventorypath
    migrationstatus := n.migrationstatus
    migrationstatusstring := n.migrationstatusstring
    lastupdatefromsource := n.lastupdatefromsource
    lastmanualupdate := n.lastmanualupdate
    sourceid := n.sourceid
    targetid := n.targetid
    batchid := n.batchid
    name := n.name
    architecture := n.architecture
    os := n.os
    osversion := n.osversion
    disks := n.disks
    nics := n.nics
    numbercpus := n.numbercpus
    memoryinmib := n.memoryinmib
    uselegacybios := n.uselegacybios
    securebootenabled := n.securebootenabled
    tpmpresent := n.tpmpresent
    needsdiskimport := n.needsdiskimport }

/-- The statement `UPDATE instances SET ... WHERE uuid=?` of `UpdateInstance`, with the
number of affected rows.
Modelled from the spec: the statement fails, changing nothing, when it would leave a row
whose source does not exist, or whose target is set and does not exist ("target_id (nullable
until assigned)", "an instance's `source_id` and `target_id` must reference existing rows").
`noID` is the value that the code stores for no id (`INVALID_DATABASE_ID`). -/
def execUpdate (noID : Int) (db : DB) (n : Row) (u : UUID) : Except Err (DB × Nat) :=
  let hit := db.instances.filter (fun r => decide (r.uuid = u))
  if hit ≠ [] ∧ (¬ n.sourceid ∈ db.sources ∨ (n.targetid ≠ noID ∧ ¬ n.targetid ∈ db.targets)) then
    .error (.sqlConstraint "FOREIGN KEY constraint failed")
  else
    .ok ({ db with instances := db.instances.map (fun r => if r.uuid = u then setColumns n r else r) },
         hit.length)

/-- The statement `DELETE FROM instances WHERE uuid=?`, with the number of affected rows.
Modelled from the spec: the statement fails, changing nothing, when a deleted row still has
an overrides row ("Deleting the parent Instance while Overrides exists is forbidden",
"not a storage-engine cascade"). -/
def execDelete (db : DB) (u : UUID) : Except Err (DB × Nat) :=
  let hit := db.instances.filter (fun r => decide (r.uuid = u))
  if hit ≠ [] ∧ u ∈ db.overrides then
    .error (.sqlConstraint "FOREIGN KEY constraint failed")
  else
    .ok ({ db with instances := db.instances.filter (fun r => decide (r.uuid ≠ u)) }, hit.length)

/-- The statement `UPDATE instances SET migrationstatus=?,migrationstatusstring=?,needsdiskimport=?
WHERE uuid=?`, with the number of affected rows. -/
def execUpdateStatus (db : DB) (status : Int) (statusString : String) (needsDiskImport : Bool)
    (u : UUID) : DB × Nat :=
  ({ db with instances := db.instances.map (fun r =>
      if r.uuid = u then
        { r with migrationstatus := status, migrationstatusstring := statusString,
                 needsdiskimport := needsDiskImport }
      else r) },
   (db.instances.filter (fun r => decide (r.uuid = u))).length)

/-! ## The functions of `instance.go` -/

section Functions

variable {Time : Type}

/-- Lift the result of a library call: its error is returned as it is. -/
def liftLib {α : Type} : Except String α → Except Err α
  | .ok a => .ok a
  | .error m => .error (.library m)

/-- The four marshalling steps shared by `AddInstance` and `UpdateInstance`, in source order
(`LastUpdateFromSource`, `LastManualUpdate`, `Disks`, `NICs`), and the argument list of the
statement: the row the instance is written as. -/
def marshalInstance (env : Env Time) (i : InternalInstance Time) : Except Err Row :=
  match liftLib (env.marshalTime i.LastUpdateFromSource) with
  | .error e => .error e
  | .ok marshalledLastUpdateFromSource =>
  match liftLib (env.marshalTime i.LastManualUpdate) with
  | .error e => .error e
  | .ok marshalledLastManualUpdate =>
  match liftLib (env.marshalDisks i.Disks) with
  | .error e => .error e
  | .ok marshalledDisks =>
  match liftLib (env.marshalNICs i.NICs) with
  | .error e => .error e
  | .ok marshalledNICs =>
    .ok { uuid := i.UUID
          inventorypath := i.InventoryPath
          migrationstatus := i.MigrationStatus
          migrationstatusstring := i.MigrationStatusString
          lastupdatefromsource := marshalledLastUpdateFromSource
          lastmanualupdate := marshalledLastManualUpdate
          sourceid := i.SourceID
          targetid := i.TargetID
          batchid := i.BatchID
          name := i.Name
          architecture := i.Architecture
          os := i.OS
          osversion := i.OSVersion
          disks := marshalledDisks
          nics := marshalledNICs
          numbercpus := i.NumberCPUs
          memoryinmib := i.MemoryInMiB
          uselegacybios := i.UseLegacyBios
          securebootenabled := i.SecureBootEnabled
          tpmpresent := i.TPMPresent
          needsdiskimport := i.NeedsDiskImport }

/-- Function `AddInstance`: the new database and the returned error (`none` is `nil`). -/
def AddInstance (env : Env Time) (db : DB) (i : Instance Time) : DB × Option Err :=
  match i with
  | .other _ _ => (db, some .notInternalInstance)
  | .internal internalInstance =>
    match marshalInstance env internalInstance with
    | .error e => (db, some e)
    | .ok row =>
      match execInsert env.INVALID_DATABASE_ID db row with
      | .error e => (db, some e)
      | .ok db1 => (db1, none)

/-- The body of the `rows.Next()` loop of `getInstancesHelper` for one row: `rows.Scan`
into a fresh instance, then the four unmarshalling steps in source order. -/
def scanRow (env : Env Time) (r : Row) : Except Err (InternalInstance Time) :=
  match liftLib (env.unmarshalTime r.lastupdatefromsource) with
  | .error e => .error e
  | .ok lastUpdateFromSource =>
  match liftLib (env.unmarshalTime r.lastmanualupdate) with
  | .error e => .error e
  | .ok lastManualUpdate =>
  match liftLib (env.unmarshalDisks r.disks) with
  | .error e => .error e
  | .ok disks =>
  match liftLib (env.unmarshalNICs r.nics) with
  | .error e => .error e
  | .ok nics =>
    .ok { UUID := r.uuid
          InventoryPath := r.inventorypath
          MigrationStatus := r.migrationstatus
          MigrationStatusString := r.migrationstatusstring
          LastUpdateFromSource := lastUpdateFromSource
          LastManualUpdate := lastManualUpdate
          SourceID := r.sourceid
          TargetID := r.targetid
          BatchID := r.batchid
          Name := r.name
          Architecture := r.architecture
          OS := r.os
          OSVersion := r.osversion
          Disks := disks
          NICs := nics
          NumberCPUs := r.numbercpus
          MemoryInMiB := r.memoryinmib
          UseLegacyBios := r.uselegacybios
          SecureBootEnabled := r.securebootenabled
          TPMPresent := r.tpmpresent
          NeedsDiskImport := r.needsdiskimport }

/-- The `rows.Next()` loop of `getInstancesHelper`: the instances of the selected rows in
order, or the error of the first row that fails. -/
def scanRows (env : Env Time) : List Row → Except Err (List (InternalInstance Time))
  | [] => .ok []
  | r :: rs =>
    match scanRow env r with
    | .error e => .error e
    | .ok newInstance =>
      match scanRows env rs with
      | .error e => .error e
      | .ok ret => .ok (newInstance :: ret)

/-- Function `getInstancesHelper`: with the all-zero UUID every row ordered by name, with
any other UUID the rows of that UUID. -/
def getInstancesHelper (env : Env Time) (db : DB) (u : UUID) :
    Except Err (List (InternalInstance Time)) :=
  if u ≠ UUID.Nil then scanRows env (selectByUUID db u)
  else scanRows env (selectAllOrdered db)

/-- Function `GetInstance`. -/
def GetInstance (env : Env Time) (db : DB) (u : UUID) : Except Err (InternalInstance Time) :=
  match getInstancesHelper env db u with
  | .error e => .error e
  | .ok ret =>
    match ret with
    | [i] => .ok i
    | _ => .error (.noInstanceExists u)

/-- Function `GetAllInstances`. -/
def GetAllInstances (env : Env Time) (db : DB) : Except Err (List (InternalInstance Time)) :=
  getInstancesHelper env db UUID.Nil

/-- Function `DeleteInstance`: the new database and the returned error. -/
def DeleteInstance (env : Env Time) (db : DB) (u : UUID) : DB × Option Err :=
  match GetInstance env db u with
  | .error e => (db, some e)
  | .ok i =>
    if i.BatchID ≠ env.INVALID_DATABASE_ID ∨ env.IsMigrating i = true then
      (db, some (.cannotDelete i.Name))
    else
      match execDelete db u with
      | .error e => (db, some e)
      | .ok (db1, affectedRows) =>
        if affectedRows = 0 then (db1, some (.cantDelete u)) else (db1, none)

/-- Function `UpdateInstance`: the new database and the returned error. -/
def UpdateInstance (env : Env Time) (db : DB) (i : Instance Time) : DB × Option Err :=
  match queryBatchid db i.GetUUID with
  | none => (db, some .sqlNoRows)
  | some batchID =>
    if batchID ≠ env.INVALID_DATABASE_ID then
      match queryBatchName db batchID with
      | none => (db, some .sqlNoRows)
      | some batchName => (db, some (.cannotUpdate i.GetName batchName))
    else
      match i with
      | .other _ _ => (db, some .notInternalInstance)
      | .internal internalInstance =>
        match marshalInstance env internalInstance with
        | .error e => (db, some e)
        | .ok row =>
          match execUpdate env.INVALID_DATABASE_ID db row internalInstance.UUID with
          | .error e => (db, some e)
          | .ok (db1, affectedRows) =>
            if affectedRows = 0 then (db1, some (.cantUpdate internalInstance.UUID))
            else (db1, none)

/-- Function `GetAllInstancesByState`. -/
def GetAllInstancesByState (env : Env Time) (db : DB) (status : Int) :
    Except Err (List (InternalInstance Time)) :=
  match GetAllInstances env db with
  | .error e => .error e
  | .ok instances => .ok (instances.filter (fun i => decide (i.MigrationStatus = status)))

/-- Function `UpdateInstanceStatus`: the statement is executed and its error returned; the
result with the number of affected rows is dropped. -/
def UpdateInstanceStatus (db : DB) (u : UUID) (status : Int) (statusString : String)
    (needsDiskImport : Bool) : DB × Option Err :=
  ((execUpdateStatus db status statusString needsDiskImport u).1, none)

end Functions

/-! ## Properties of tables and rows used in the statements -/

/-- The uuids of the rows of table `instances` are pairwise distinct, as the data model
requires ("uuid (globally unique, immutable)"). -/
def UniqueUUIDs (db : DB) : Prop :=
  (db.instances.map (fun r => r.uuid)).Nodup

instance (db : DB) : Decidable (UniqueUUIDs db) := by
  unfold UniqueUUIDs; infer_instance

/-- Row `b` has the value of row `a` in every column other than `migrationstatus`,
`migrationstatusstring` and `needsdiskimport`. -/
def SameOutsideStatus (a b : Row) : Prop :=
  b.uuid = a.uuid ∧ b.inventorypath = a.inventorypath ∧
  b.lastupdatefromsource = a.lastupdatefromsource ∧ b.lastmanualupdate = a.lastmanualupdate ∧
  b.sourceid = a.sourceid ∧ b.targetid = a.targetid ∧ b.batchid = a.batchid ∧
  b.name = a.name ∧ b.architecture = a.architecture ∧ b.os = a.os ∧
  b.osversion = a.osversion ∧ b.disks = a.disks ∧ b.nics = a.nics ∧
  b.numbercpus = a.numbercpus ∧ b.memoryinmib = a.memoryinmib ∧
  b.uselegacybios = a.uselegacybios ∧ b.securebootenabled = a.securebootenabled ∧
  b.tpmpresent = a.tpmpresent

instance (a b : Row) : Decidable (SameOutsideStatus a b) := by
  unfold SameOutsideStatus; infer_instance

/-- One call of a mutating function of `instance.go`. -/
inductive Op (Time : Type) where
  | add (i : Instance Time)
  | update (i : Instance Time)
  | delete (u : UUID)
  | updateStatus (u : UUID) (status : Int) (statusString : String) (needsDiskImport : Bool)

/-- The operation is a call of `UpdateInstanceStatus`. -/
def Op.isUpdateStatus {Time : Type} : Op Time → Bool
  | .updateStatus _ _ _ _ => true
  | _ => false

/-- The database after one call. -/
def applyOp {Time : Type} (env : Env Time) (db : DB) : Op Time → DB
  | .add i => (AddInstance env db i).1
  | .update i => (UpdateInstance env db i).1
  | .delete u => (DeleteInstance env db u).1
  | .updateStatus u status statusString needsDiskImport =>
      (UpdateInstanceStatus db u status statusString needsDiskImport).1

/-- The database after a finite sequence of calls, in order. -/
def applyOps {Time : Type} (env : Env Time) (db : DB) (ops : List (Op Time)) : DB :=
  ops.foldl (applyOp env) db

/-- The library encoders reproduce the two time stamps and the two arrays of instance `i`:
unmarshalling what marshalling returned gives the value back. -/
def EncodingRoundTrips {Time : Type} (env : Env Time) (i : InternalInstance Time) : Prop :=
  (∀ s, env.marshalTime i.LastUpdateFromSource = .ok s →
    env.unmarshalTime s = .ok i.LastUpdateFromSource) ∧
  (∀ s, env.marshalTime i.LastManualUpdate = .ok s →
    env.unmarshalTime s = .ok i.LastManualUpdate) ∧
  (∀ s, env.marshalDisks i.Disks = .ok s → env.unmarshalDisks s = .ok i.Disks) ∧
  (∀ s, env.marshalNICs i.NICs = .ok s → env.unmarshalNICs s = .ok i.NICs)

/-! ## Sample values -/

/-- Two time stamps for the examples. -/
inductive SampleTime where
  | zero
  | epoch
  deriving DecidableEq

/-- An environment for the examples: `INVALID_DATABASE_ID` is `-1`, an instance counts as
migrating when its status lies between 3 and 8, the time encoder knows the two sample time
stamps in RFC 3339 form, and the array encoders know the nil slice (`null`) and the empty
slice (`[]`). -/
def sampleEnv : Env SampleTime where
  INVALID_DATABASE_ID := -1
  IsMigrating := fun i => decide (3 ≤ i.MigrationStatus ∧ i.MigrationStatus ≤ 8)
  marshalTime := fun t =>
    match t with
    | .zero => .ok "0001-01-01T00:00:00Z"
    | .epoch => .ok "1970-01-01T00:00:00Z"
  unmarshalTime := fun s =>
    if s = "0001-01-01T00:00:00Z" then .ok .zero
    else if s = "1970-01-01T00:00:00Z" then .ok .epoch
    else .error "parsing time: not a sample time stamp"
  marshalDisks := fun d =>
    match d with
    | none => .ok "null"
    | some [] => .ok "[]"
    | some (_ :: _) => .error "json: not a sample value"
  unmarshalDisks := fun s =>
    if s = "null" then .ok none
    else if s = "[]" then .ok (some [])
    else .error "json: not a sample value"
  marshalNICs := fun d =>
    match d with
    | none => .ok "null"
    | some [] => .ok "[]"
    | some (_ :: _) => .error "json: not a sample value"
  unmarshalNICs := fun s =>
    if s = "null" then .ok none
    else if s = "[]" then .ok (some [])
    else .error "json: not a sample value"

/-- A sample instance with the given uuid, name, status and batch. -/
def sampleInstance (u : UUID) (name : String) (status : Int) (batch : Int) :
    InternalInstance SampleTime where
  UUID := u
  InventoryPath := "/path/" ++ name
  MigrationStatus := status
  MigrationStatusString := "status"
  LastUpdateFromSource := .epoch
  LastManualUpdate := .zero
  SourceID := 1
  TargetID := 1
  BatchID := batch
  Name := name
  Architecture := "x86_64"
  OS := "Ubuntu"
  OSVersion := "24.04"
  Disks := some []
  NICs := none
  NumberCPUs := 2
  MemoryInMiB := 4096
  UseLegacyBios := false
  SecureBootEnabled := false
  TPMPresent := false
  NeedsDiskImport := false

/-- The row that `sampleInstance` is stored as. -/
def sampleRow (u : UUID) (name : String) (status : Int) (batch : Int) : Row where
  uuid := u
  inventorypath := "/path/" ++ name
  migrationstatus := status
  migrationstatusstring := "status"
  lastupdatefromsource := "1970-01-01T00:00:00Z"
  lastmanualupdate := "0001-01-01T00:00:00Z"
  sourceid := 1
  targetid := 1
  batchid := batch
  name := name
  architecture := "x86_64"
  os := "Ubuntu"
  osversion := "24.04"
  disks := "[]"
  nics := "null"
  numbercpus := 2
  memoryinmib := 4096
  uselegacybios := false
  securebootenabled := false
  tpmpresent := false
  needsdiskimport := false

/-- A database with source 1, target 1, batch 1 and the given instance rows. -/
def sampleDB (rows : List Row) (overrides : List UUID) : DB where
  instances := rows
  batches := [(1, "TestBatch")]
  sources := [1]
  targets := [1]
  overrides := overrides

/-- Stored row: not assigned to a batch, not migrating. -/
def rowA : Row := sampleRow (UUID.ofByte 1) "UbuntuVM" 1 (-1)

/-- The instance stored as `rowA`. -/
def instA : InternalInstance SampleTime := sampleInstance (UUID.ofByte 1) "UbuntuVM" 1 (-1)

/-- Stored row: not assigned to a batch, with a migrating status. -/
def rowB : Row := sampleRow (UUID.ofByte 2) "WindowsVM" 4 (-1)

/-- The instance stored as `rowB`. -/
def instB : InternalInstance SampleTime := sampleInstance (UUID.ofByte 2) "WindowsVM" 4 (-1)

/-- Stored row: assigned to batch 1, which exists in `sampleDB`. -/
def rowC : Row := sampleRow (UUID.ofByte 3) "DebianVM" 2 1

/-- The instance stored as `rowC`. -/
def instC : InternalInstance SampleTime := sampleInstance (UUID.ofByte 3) "DebianVM" 2 1

/-- Stored row: assigned to batch 7, of which `sampleDB` has no row. -/
def rowD : Row := sampleRow (UUID.ofByte 4) "OrphanVM" 2 7

/-- The instance stored as `rowD`. -/
def instD : InternalInstance SampleTime := sampleInstance (UUID.ofByte 4) "OrphanVM" 2 7

/-- Stored row with the all-zero UUID: not assigned to a batch, not migrating. -/
def rowZ : Row := sampleRow UUID.Nil "ZeroVM" 1 (-1)

/-- The instance stored as `rowZ`. -/
def instZ : InternalInstance SampleTime := sampleInstance UUID.Nil "ZeroVM" 1 (-1)

/-- A sequence of calls that tries every operation on the instance of `rowC`. -/
def sampleOps : List (Op SampleTime) :=
  [ .update (.internal (sampleInstance (UUID.ofByte 3) "Renamed" 1 (-1))),
    .delete (UUID.ofByte 3),
    .updateStatus (UUID.ofByte 3) 4 "importing" true,
    .add (.internal instC),
    .add (.internal instB) ]

/-! ## Source validation (`internal/migration/source_model.go`) -/

/-- An argument of a format string. -/
inductive FormatArg where
  | str (s : String)
  | int (n : Int)
  deriving DecidableEq

/-- The error values of package `migration` that `source_model.go` can see: the value that
`NewValidationErrf` creates, of type `ErrValidation`, kept as format string and arguments,
and the error of a library call as the library returned it. -/
inductive MigrationErr where
  | ErrValidation (format : String) (args : List FormatArg)
  | library (msg : String)
  deriving DecidableEq

/-- Modelled from the spec: the function `NewValidationErrf` (declared outside the source
tree) creates the `ValidationError` value: "`ValidationError` (input fails an entity
invariant; always recoverable by caller correcting input)". -/
def NewValidationErrf (format : String) (args : List FormatArg) : MigrationErr :=
  .ErrValidation format args

/-- The error belongs to the `ValidationError` class: it is an `ErrValidation` value. -/
def MigrationErr.isErrValidation : MigrationErr → Bool
  | .ErrValidation _ _ => true
  | .library _ => false

/-- Struct `Source`.  `Properties` is `none` when the slice is nil. -/
structure Source where
  ID : Int
  Name : String
  SourceType : Int
  Properties : Option Bytes
  deriving DecidableEq

/-- Modelled from the spec: the fields of `api.VMwareProperties` (declared outside the source
tree) that the validation reads: "properties (opaque structured config: endpoint URL,
credentials/tokens, insecure flag)". -/
structure VMwareProperties where
  Endpoint : String
  Username : String
  Password : String
  deriving DecidableEq

/-- What `source_model.go` uses without defining it: the two constants of `api.SourceType`
and the library calls.  A library call that returns only an error is an `Option String`, the
text of the error or `none` for nil. -/
structure ValidateEnv where
  /-- The constant `api.SOURCETYPE_COMMON`. -/
  SOURCETYPE_COMMON : Int
  /-- The constant `api.SOURCETYPE_VMWARE`. -/
  SOURCETYPE_VMWARE : Int
  /-- Library call `json.Unmarshal(data, &v)` with `v` of type `any`. -/
  unmarshalAny : Bytes → Option String
  /-- Library call `json.Unmarshal(data, &properties)` into a zero `api.VMwareProperties`. -/
  unmarshalVMware : Bytes → Except String VMwareProperties
  /-- Library call `url.Parse`, of which only the error is used. -/
  urlParse : String → Option String

/-- Method `validateSourceTypeCommon`, called with non-nil properties. -/
def validateSourceTypeCommon (env : ValidateEnv) (properties : Bytes) : Option MigrationErr :=
  match env.unmarshalAny properties with
  | some err =>
    some (NewValidationErrf "Invalid properties for common type: %v" [.str err])
  | none => none

/-- Method `validateSourceTypeVMware`, called with non-nil properties. -/
def validateSourceTypeVMware (env : ValidateEnv) (data : Bytes) : Option MigrationErr :=
  match env.unmarshalVMware data with
  | .error err =>
    some (NewValidationErrf "Invalid properties for VMware type: %v" [.str err])
  | .ok properties =>
    match env.urlParse properties.Endpoint with
    | some err =>
      some (NewValidationErrf "Invalid source, endpoint %q is not a valid URL: %v"
        [.str properties.Endpoint, .str err])
    | none =>
      if properties.Username = "" then
        some (NewValidationErrf
          "Invalid source, username can not be empty for source type VMware" [])
      else if properties.Password = "" then
        some (NewValidationErrf
          "Invalid source, password can not be empty for source type VMware" [])
      else none

/-- Method `Source.Validate`: the returned error, `none` for nil.  The `switch` has the cases
`SOURCETYPE_COMMON` and `SOURCETYPE_VMWARE` and no default. -/
def Source.Validate (env : ValidateEnv) (s : Source) : Option MigrationErr :=
  if s.ID < 0 then
    some (NewValidationErrf "Invalid source, id can not be negative" [])
  else if s.Name = "" then
    some (NewValidationErrf "Invalid source, name can not be empty" [])
  else if s.SourceType < env.SOURCETYPE_COMMON ∨ s.SourceType > env.SOURCETYPE_VMWARE then
    some (NewValidationErrf "Invalid source, %d is not a valid source type" [.int s.SourceType])
  else
    match s.Properties with
    | none => some (NewValidationErrf "Invalid source, properties can not be null" [])
    | some properties =>
      let err :=
        if s.SourceType = env.SOURCETYPE_COMMON then validateSourceTypeCommon env properties
        else if s.SourceType = env.SOURCETYPE_VMWARE then validateSourceTypeVMware env properties
        else none
      match err with
      | some e => some e
      | none => none

/-! ## Transactions (`internal/db/query/transation.go`) -/

/-- An error value as `Transaction` sees it: an error with a text, the value
`sql.ErrTxDone`, or an error made by `fmt.Errorf` with `%w` around another error. -/
inductive GoErr where
  | msg (text : String)
  | ErrTxDone
  | wrap (before : String) (inner : GoErr)
  deriving DecidableEq

/-- Method `Error`: the text of the error. -/
def GoErr.Error : GoErr → String
  | .msg text => text
  | .ErrTxDone => "sql: transaction has already been committed or rolled back"
  | .wrap before inner => before ++ inner.Error

/-- The characters `p` are the first characters of `l`. -/
def startsWith : List Char → List Char → Bool
  | [], _ => true
  | _ :: _, [] => false
  | a :: as, b :: bs => decide (a = b) && startsWith as bs

/-- Library call `strings.Contains` on the characters of the two strings. -/
def stringsContains : List Char → List Char → Bool
  | [], sub => startsWith sub []
  | c :: cs, sub => startsWith sub (c :: cs) || stringsContains cs sub

/-- What one run of `Transaction` gets from its surroundings: the error of `db.BeginTx`, the
error that `f` returns, the error of `tx.Commit`, and the error of the retried `tx.Rollback`
(`none` is nil each time). -/
structure TxRun where
  beginTx : Option GoErr
  f : Option GoErr
  commit : Option GoErr
  rollback : Option GoErr
  deriving DecidableEq

/-- The calls that `Transaction` makes, as they appear in its trace. -/
inductive TxEvent where
  /-- Call `db.BeginTx(ctx, nil)`. -/
  | beginTx
  /-- Call `db.Exec("ROLLBACK")`. -/
  | execRollback
  /-- Call `f(ctx, tx)`. -/
  | callF
  /-- Call `tx.Commit()`. -/
  | commit
  /-- Call `Retry(..., tx.Rollback)`. -/
  | rollback
  /-- Call `slog.Warn("Failed to rollback transaction after error", ...)`. -/
  | warn
  deriving DecidableEq

/-- Function `rollback`: the calls it makes and the error it returns.  The function `Retry`
is declared outside the source tree; its call with `tx.Rollback` is one event, whose error
is given by the run. -/
def rollback (w : TxRun) (reason : GoErr) : List TxEvent × Option GoErr :=
  match w.rollback with
  | some _ => ([.rollback, .warn], some reason)
  | none => ([.rollback], some reason)

/-- Function `Transaction`: the calls it makes, in order, and the error it returns. -/
def Transaction (w : TxRun) : List TxEvent × Option GoErr :=
  match w.beginTx with
  | some err =>
    if stringsContains err.Error.data
        "cannot start a transaction within a transaction".data then
      ([.beginTx, .execRollback], some (.wrap "Failed to begin transaction: " err))
    else
      ([.beginTx], some (.wrap "Failed to begin transaction: " err))
  | none =>
    match w.f with
    | some err => ([.beginTx, .callF] ++ (rollback w err).1, (rollback w err).2)
    | none =>
      if w.commit = some .ErrTxDone then ([.beginTx, .callF, .commit], none)
      else ([.beginTx, .callF, .commit], w.commit)

/-! ## The TLS authorizer (`internal/server/auth/driver_tls.go`) -/

/-- The fields of the request details that `CheckPermission` reads. -/
structure RequestDetails where
  Protocol : String
  Username : String
  deriving DecidableEq

/-- The library constant `api.AuthenticationMethodTLS`. -/
def AuthenticationMethodTLS : String := "tls"

/-- The value of `api.StatusErrorf(code, text)`. -/
structure StatusError where
  status : Nat
  text : String
  deriving DecidableEq

/-- The constant `http.StatusForbidden`. -/
def StatusForbidden : Nat := 403

/-- The loop `for _, cert := range t.certificateFingerprints` of `CheckPermission`: nil at
the first fingerprint equal to the user name, the error after the last one. -/
def checkFingerprints (username : String) : List String → Option StatusError
  | [] => some ⟨StatusForbidden, "Client certificate not found"⟩
  | cert :: rest => if cert = username then none else checkFingerprints username rest

/-- Method `TLS.CheckPermission`.  The method `requestDetails` is declared outside the source
tree; `details` is what it returned for the request.  `Object` and `Entitlement` are the
types of the two last arguments. -/
def CheckPermission {Object Entitlement : Type} (certificateFingerprints : List String)
    (details : Except String RequestDetails) (_object : Object) (_entitlement : Entitlement) :
    Option StatusError :=
  match details with
  | .error err => some ⟨StatusForbidden, "Failed to extract request details: " ++ err⟩
  | .ok details =>
    if details.Protocol = "unix" then none
    else if details.Protocol ≠ AuthenticationMethodTLS then none
    else checkFingerprints details.Username certificateFingerprints

/-! ## Sample values for validation, transactions and authorization -/

/-- The bytes of a text of ASCII characters. -/
def asciiBytes (s : String) : Bytes :=
  s.data.map (fun c => Fin.ofNat c.toNat)

/-- A validation environment for the examples: the constants are 1 and 2; the decoders know
the empty JSON object, the sample VMware properties, and reject the text `not json`. -/
def sampleValidateEnv : ValidateEnv where
  SOURCETYPE_COMMON := 1
  SOURCETYPE_VMWARE := 2
  unmarshalAny := fun data =>
    if data = asciiBytes "\x7b\x7d" then none
    else some "invalid character"
  unmarshalVMware := fun data =>
    if data = asciiBytes "\x7b\x7d" then .ok ⟨"", "", ""⟩
    else if data = asciiBytes "vmware" then .ok ⟨"https://vcenter.example", "admin", "secret"⟩
    else .error "invalid character"
  urlParse := fun text =>
    if text = "https://vcenter.example" ∨ text = "" then none
    else some "parse error"

/-- A generic source with an empty JSON object as properties. -/
def sourceCommon : Source :=
  { ID := 0, Name := "TestSource", SourceType := 1, Properties := some (asciiBytes "\x7b\x7d") }

/-- A VMware source whose properties decode to an endpoint, a user name and a password. -/
def sourceVMware : Source :=
  { ID := 3, Name := "vcenter", SourceType := 2, Properties := some (asciiBytes "vmware") }

/-- The instance `instA` with a source id that table `sources` of `sampleDB` does not have. -/
def instNoSource : InternalInstance SampleTime := { instA with SourceID := 9 }

/-! ## Certificate trust (`internal/server/util/tls.go`) -/

/-- The fields of an `x509.Certificate` that `CheckTrustState` reads; a time is an instant
on the time line, so that `Before` and `After` are `<` and `>`. -/
structure Certificate where
  NotBefore : Int
  NotAfter : Int
  Raw : Bytes
  deriving DecidableEq

/-- The loop `for _, fingerprint := range trustedCertFingerprints` of `CheckTrustState` with
the return after it. -/
def matchFingerprint (certFingerprint : String) : List String → Bool × String
  | [] => (false, "")
  | fingerprint :: rest =>
    if certFingerprint = fingerprint then (true, fingerprint)
    else matchFingerprint certFingerprint rest

/-- Function `CheckTrustState`.  `CertFingerprint` is the library function
`incustls.CertFingerprint`; `now1` and `now2` are what the two calls of `time.Now()` return;
the result is `none` when the function panics. -/
def CheckTrustState (CertFingerprint : Certificate → String) (now1 now2 : Int)
    (cert : Certificate) (trustedCertFingerprints : List String) (ca : Option Certificate)
    (trustCACertificates : Bool) : Option (Bool × String) :=
  if now1 < cert.NotBefore ∨ now2 > cert.NotAfter then some (false, "")
  else
    let certFingerprint := CertFingerprint cert
    if ca ≠ none ∧ trustCACertificates = true then none
    else some (matchFingerprint certFingerprint trustedCertFingerprints)

/-! ## The target service (modelled from the specification) -/

/-- Modelled from the spec: struct `Target` (declared outside the source tree): "`{id, name
(unique, non-empty), target_type (enum), properties (opaque structured config: endpoint URL,
credentials/tokens, insecure flag)}`".  `Properties` is `none` when the slice is nil. -/
structure Target where
  ID : Int
  Name : String
  TargetType : Int
  Properties : Option Bytes
  deriving DecidableEq

/-- The zero value of struct `Target`. -/
def Target.zero : Target :=
  { ID := 0, Name := "", TargetType := 0, Properties := none }

/-- What the target validation uses from outside: the range of the type enum, the decoding of
the properties, of which the endpoint is read, and `url.Parse`. -/
structure TargetEnv where
  /-- The value lies in the range of the target type enum. -/
  validTargetType : Int → Bool
  /-- Library call `json.Unmarshal` of the properties; the result is the endpoint. -/
  unmarshalEndpoint : Bytes → Except String String
  /-- Library call `url.Parse`, of which only the error is used. -/
  urlParse : String → Option String

/-- Modelled from the spec: method `Target.Validate` (declared outside the source tree):
"pure functions that check entity invariants (non-empty names, non-negative IDs, well-formed
URLs, enum range checks) before any mutation is accepted", each failure a `ValidationError`
("input fails an entity invariant"). -/
def Target.Validate (env : TargetEnv) (t : Target) : Option MigrationErr :=
  if t.ID < 0 then
    some (NewValidationErrf "Invalid target, id can not be negative" [])
  else if t.Name = "" then
    some (NewValidationErrf "Invalid target, name can not be empty" [])
  else if env.validTargetType t.TargetType = false then
    some (NewValidationErrf "Invalid target, %d is not a valid target type" [.int t.TargetType])
  else
    match t.Properties with
    | none => some (NewValidationErrf "Invalid target, properties can not be null" [])
    | some properties =>
      match env.unmarshalEndpoint properties with
      | .error err => some (NewValidationErrf "Invalid properties: %v" [.str err])
      | .ok endpoint =>
        match env.urlParse endpoint with
        | some err =>
          some (NewValidationErrf "Invalid target, endpoint %q is not a valid URL: %v"
            [.str endpoint, .str err])
        | none => none

/-- Modelled from the spec: method `TargetService.Create` (declared outside the source tree):
"Domain services — one per aggregate, composing validation + repository", validation "before
any mutation is accepted", "validation and constraint errors are raised synchronously to the
immediate caller".  `repoCreate` is the method `Create` of the repository; with a validation
error the zero `Target` is returned, as the test `TestTargetService_Create` expects. -/
def TargetService.Create (env : TargetEnv) (repoCreate : Target → Target × Option MigrationErr)
    (newTarget : Target) : Target × Option MigrationErr :=
  match newTarget.Validate env with
  | some err => (Target.zero, some err)
  | none => repoCreate newTarget

/-- Modelled from the spec: method `TargetService.UpdateByID` (declared outside the source
tree), built like `TargetService.Create` from the validation and the method `UpdateByID` of
the repository; the test is `TestTargetService_UpdateByID`. -/
def TargetService.UpdateByID (env : TargetEnv)
    (repoUpdateByID : Target → Target × Option MigrationErr) (newTarget : Target) :
    Target × Option MigrationErr :=
  match newTarget.Validate env with
  | some err => (Target.zero, some err)
  | none => repoUpdateByID newTarget

/-! ## Sample values for certificates and targets -/

/-- A fingerprint function for the examples: the characters of the raw bytes. -/
def sampleFingerprint (cert : Certificate) : String :=
  String.mk (cert.Raw.map (fun b => Char.ofNat b.val))

/-- A certificate valid from instant 100 to instant 200 whose sample fingerprint is `abc`. -/
def sampleCert : Certificate :=
  { NotBefore := 100, NotAfter := 200, Raw := asciiBytes "abc" }

/-- A target environment for the examples: type 1 is the only target type, the properties
are the endpoint itself, and an endpoint is accepted unless it starts with a colon. -/
def sampleTargetEnv : TargetEnv where
  validTargetType := fun n => decide (n = 1)
  unmarshalEndpoint := fun data =>
    .ok (String.mk (data.map (fun b => Char.ofNat b.val)))
  urlParse := fun text =>
    match text.data with
    | ':' :: _ => some "missing protocol scheme"
    | _ => none

/-- A valid target. -/
def targetOne : Target :=
  { ID := 1, Name := "one", TargetType := 1, Properties := some (asciiBytes "endpoint.url") }

/-- A repository for the examples, whose two methods return what they are given. -/
def sampleRepo (t : Target) : Target × Option MigrationErr := (t, none)

/-- The instances are in the order of their names: no instance has a name that is strictly
before the name of an instance earlier in the list. -/
def OrderedByName {Time : Type} (l : List (InternalInstance Time)) : Prop :=
  l.Pairwise (fun a b => textLT b.Name.data a.Name.data = false)

/-- A request authenticated by a protocol that is neither the unix socket nor TLS. -/
def detailsOIDC : RequestDetails := { Protocol := "oidc", Username := "alice" }

/-- A run of `Transaction` in which `db.BeginTx` reports a leftover transaction, while `f` and
`tx.Commit` would return nil. -/
def runNested : TxRun :=
  { beginTx := some (.msg "cannot start a transaction within a transaction")
    f := none
    commit := none
    rollback := none }

/-- A run of `Transaction` in which `f` fails and the rollback fails too. -/
def runRollbackFails : TxRun :=
  { beginTx := none
    f := some (.msg "disk full")
    commit := none
    rollback := some (.msg "no transaction is active") }

/-! ## Sample values with time stamps and arrays as the library encodes them -/

/-- Time stamps for the examples of encoding: the zero time, a wall clock time in UTC, the
same instant as `time.Now()` returns it, that is with a monotonic clock reading, and a time
in the year 10000. -/
inductive ClockTime where
  | zero
  | wall
  | wallMonotonic
  | year10000
  deriving DecidableEq

/-- A disk of the examples. -/
def diskOne : InstanceDiskInfo :=
  { Name := asciiBytes "disk1", DifferentialSyncSupported := true, SizeInBytes := 123 }

/-- A second disk of the examples. -/
def diskTwo : InstanceDiskInfo :=
  { Name := asciiBytes "disk2", DifferentialSyncSupported := false, SizeInBytes := 321 }

/-- A disk whose name is the single byte `0xff`, which is not valid UTF-8. -/
def diskBadName : InstanceDiskInfo :=
  { Name := [0xff], DifferentialSyncSupported := true, SizeInBytes := 123 }

/-- The disk `diskBadName` as it comes back from JSON: the name is the three bytes of the
replacement character U+FFFD. -/
def diskReplacedName : InstanceDiskInfo :=
  { Name := [0xef, 0xbf, 0xbd], DifferentialSyncSupported := true, SizeInBytes := 123 }

/-- A NIC of the examples. -/
def nicOne : InstanceNICInfo := { Network := asciiBytes "net1", Hwaddr := asciiBytes "mac1" }

/-- A second NIC of the examples. -/
def nicTwo : InstanceNICInfo := { Network := asciiBytes "net2", Hwaddr := asciiBytes "mac2" }

/-- The JSON text of the array of `diskOne` and `diskTwo`.  The key names stand for the
struct tags of package `api`, which the source tree at hand does not hold. -/
def textTwoDisks : String :=
  "[\x7b\"name\":\"disk1\",\"differential_sync_supported\":true,\"size_in_bytes\":123\x7d,\x7b\"name\":\"disk2\",\"differential_sync_supported\":false,\"size_in_bytes\":321\x7d]"

/-- The JSON text of the array of `diskBadName`: `json.Marshal` writes the replacement
character for bytes that are not valid UTF-8. -/
def textBadDisk : String :=
  "[\x7b\"name\":\"\\ufffd\",\"differential_sync_supported\":true,\"size_in_bytes\":123\x7d]"

/-- The JSON text of the array of `nicOne` and `nicTwo`. -/
def textTwoNICs : String :=
  "[\x7b\"network\":\"net1\",\"hwaddr\":\"mac1\"\x7d,\x7b\"network\":\"net2\",\"hwaddr\":\"mac2\"\x7d]"

/-- An environment for the examples of encoding, as `sampleEnv` but with the encoders as
the library behaves on the values used.  `MarshalText` prints the wall clock reading only and
refuses the year 10000; `UnmarshalText` returns a time without monotonic clock reading.  The
array encoders know the nil slice, the empty slice, the arrays of the sample disks and NICs,
and the array of `diskBadName`, whose text decodes to `diskReplacedName`. -/
def clockEnv : Env ClockTime where
  INVALID_DATABASE_ID := -1
  IsMigrating := fun i => decide (3 ≤ i.MigrationStatus ∧ i.MigrationStatus ≤ 8)
  marshalTime := fun t =>
    match t with
    | .zero => .ok "0001-01-01T00:00:00Z"
    | .wall => .ok "2024-11-06T14:23:16.439206188Z"
    | .wallMonotonic => .ok "2024-11-06T14:23:16.439206188Z"
    | .year10000 => .error "Time.MarshalText: year outside of range [0,9999]"
  unmarshalTime := fun s =>
    if s = "0001-01-01T00:00:00Z" then .ok .zero
    else if s = "2024-11-06T14:23:16.439206188Z" then .ok .wall
    else .error "parsing time: not a sample time stamp"
  marshalDisks := fun d =>
    if d = none then .ok "null"
    else if d = some [] then .ok "[]"
    else if d = some [diskOne, diskTwo] then .ok textTwoDisks
    else if d = some [diskBadName] then .ok textBadDisk
    else .error "json: not a sample value"
  unmarshalDisks := fun s =>
    if s = "null" then .ok none
    else if s = "[]" then .ok (some [])
    else if s = textTwoDisks then .ok (some [diskOne, diskTwo])
    else if s = textBadDisk then .ok (some [diskReplacedName])
    else .error "json: not a sample value"
  marshalNICs := fun d =>
    if d = none then .ok "null"
    else if d = some [] then .ok "[]"
    else if d = some [nicOne, nicTwo] then .ok textTwoNICs
    else .error "json: not a sample value"
  unmarshalNICs := fun s =>
    if s = "null" then .ok none
    else if s = "[]" then .ok (some [])
    else if s = textTwoNICs then .ok (some [nicOne, nicTwo])
    else .error "json: not a sample value"

/-- An instance for `clockEnv` with the given uuid, time stamp of the last update from the
source, disks and NICs; it refers to source 1 and target 1 and is not assigned to a batch. -/
def clockInstance (u : UUID) (t : ClockTime) (disks : Option (List InstanceDiskInfo))
    (nics : Option (List InstanceNICInfo)) : InternalInstance ClockTime where
  UUID := u
  InventoryPath := "/path/DebianVM"
  MigrationStatus := 1
  MigrationStatusString := "status"
  LastUpdateFromSource := t
  LastManualUpdate := .zero
  SourceID := 1
  TargetID := 1
  BatchID := -1
  Name := "DebianVM"
  Architecture := "arm64"
  OS := "Debian"
  OSVersion := "bookworm"
  Disks := disks
  NICs := nics
  NumberCPUs := 4
  MemoryInMiB := 4096
  UseLegacyBios := true
  SecureBootEnabled := false
  TPMPresent := false
  NeedsDiskImport := false

/-- The row that an instance of `clockInstance` is stored as, given the texts of its time
stamp, disks and NICs. -/
def clockRow (u : UUID) (timeText disksText nicsText : String) : Row where
  uuid := u
  inventorypath := "/path/DebianVM"
  migrationstatus := 1
  migrationstatusstring := "status"
  lastupdatefromsource := timeText
  lastmanualupdate := "0001-01-01T00:00:00Z"
  sourceid := 1
  targetid := 1
  batchid := -1
  name := "DebianVM"
  architecture := "arm64"
  os := "Debian"
  osversion := "bookworm"
  disks := disksText
  nics := nicsText
  numbercpus := 4
  memoryinmib := 4096
  uselegacybios := true
  securebootenabled := false
  tpmpresent := false
  needsdiskimport := false

/-- An instance with two disks, two NICs and a wall clock time stamp. -/
def instFull : InternalInstance ClockTime :=
  clockInstance (UUID.ofByte 5) .wall (some [diskOne, diskTwo]) (some [nicOne, nicTwo])

/-- The row that `instFull` is stored as. -/
def rowFull : Row :=
  clockRow (UUID.ofByte 5) "2024-11-06T14:23:16.439206188Z" textTwoDisks textTwoNICs

/-- An instance whose time stamp has a monotonic clock reading. -/
def instMonotonic : InternalInstance ClockTime :=
  clockInstance (UUID.ofByte 6) .wallMonotonic (some []) none

/-- The instance that is read back for `instMonotonic`: the monotonic clock reading is gone. -/
def instMonotonicRead : InternalInstance ClockTime :=
  clockInstance (UUID.ofByte 6) .wall (some []) none

/-- The row that `instMonotonic` is stored as. -/
def rowMonotonic : Row :=
  clockRow (UUID.ofByte 6) "2024-11-06T14:23:16.439206188Z" "[]" "null"

/-- An instance with a disk whose name is not valid UTF-8. -/
def instBadName : InternalInstance ClockTime :=
  clockInstance (UUID.ofByte 7) .wall (some [diskBadName]) none

/-- The instance that is read back for `instBadName`. -/
def instBadNameRead : InternalInstance ClockTime :=
  clockInstance (UUID.ofByte 7) .wall (some [diskReplacedName]) none

/-- The row that `instBadName` is stored as. -/
def rowBadName : Row :=
  clockRow (UUID.ofByte 7) "2024-11-06T14:23:16.439206188Z" textBadDisk "null"

/-- An instance with the UUID of `rowFull` and a time stamp in the year 10000. -/
def instYear10000 : InternalInstance ClockTime :=
  clockInstance (UUID.ofByte 5) .year10000 (some []) none

/-! ## Lemmas -/

section Lemmas

variable {Time : Type}

theorem filter_uuid_eq_nil {l : List Row} {u : UUID} (h : ∀ r ∈ l, r.uuid ≠ u) :
    l.filter (fun r => decide (r.uuid = u)) = [] := by
  rw [List.filter_eq_nil_iff]
  intro r hr
  simpa using h r hr

theorem filter_uuid_ne_self {l : List Row} {u : UUID} (h : ∀ r ∈ l, r.uuid ≠ u) :
    l.filter (fun r => decide (r.uuid ≠ u)) = l := by
  rw [List.filter_eq_self]
  intro r hr
  simpa using h r hr

theorem execDelete_missing {db : DB} {u : UUID} (h : ∀ r ∈ db.instances, r.uuid ≠ u) :
    execDelete db u = .ok (db, 0) := by
  unfold execDelete
  simp only [filter_uuid_eq_nil h, filter_uuid_ne_self h]
  simp

theorem queryBatchid_missing {db : DB} {u : UUID} (h : ∀ r ∈ db.instances, r.uuid ≠ u) :
    queryBatchid db u = none := by
  unfold queryBatchid
  rw [Option.map_eq_none', List.find?_eq_none]
  intro r hr
  simpa using h r hr

theorem insertByName_perm (r : Row) (l : List Row) : (insertByName r l).Perm (r :: l) := by
  induction l with
  | nil => exact List.Perm.refl _
  | cons x xs ih =>
    unfold insertByName
    split
    · exact (List.Perm.cons x ih).trans (List.Perm.swap r x xs)
    · exact List.Perm.refl _

theorem orderByName_perm (l : List Row) : (orderByName l).Perm l := by
  induction l with
  | nil => exact List.Perm.refl _
  | cons x xs ih =>
    unfold orderByName
    exact (insertByName_perm x _).trans (List.Perm.cons x ih)

theorem orderByName_eq_singleton {l : List Row} {r : Row} (h : orderByName l = [r]) :
    l = [r] := by
  have hp := orderByName_perm l
  rw [h] at hp
  exact List.perm_singleton.mp hp.symm

theorem scanRows_singleton (env : Env Time) {rows : List Row} {i : InternalInstance Time}
    (h : scanRows env rows = .ok [i]) : ∃ r, rows = [r] ∧ scanRow env r = .ok i := by
  cases rows with
  | nil => simp [scanRows] at h
  | cons r rs =>
    unfold scanRows at h
    cases hr : scanRow env r with
    | error e => simp [hr] at h
    | ok x =>
      simp only [hr] at h
      cases hrs : scanRows env rs with
      | error e => simp [hrs] at h
      | ok ys =>
        simp only [hrs] at h
        cases rs with
        | nil =>
          simp only [Except.ok.injEq, List.cons.injEq] at h
          exact ⟨r, rfl, by rw [← h.1]; exact hr⟩
        | cons r2 rs2 =>
          exfalso
          unfold scanRows at hrs
          cases h2 : scanRow env r2 with
          | error e => simp [h2] at hrs
          | ok x2 =>
            simp only [h2] at hrs
            cases h3 : scanRows env rs2 with
            | error e => simp [h3] at hrs
            | ok zs =>
              simp only [h3, Except.ok.injEq] at hrs
              rw [← hrs] at h
              simp at h

/-- What a successful `GetInstance` has read: exactly one row was selected, and the result is
that row scanned. -/
theorem GetInstance_ok (env : Env Time) {db : DB} {u : UUID} {i : InternalInstance Time}
    (h : GetInstance env db u = .ok i) :
    ∃ r, scanRow env r = .ok i ∧
      ((u ≠ UUID.Nil ∧ selectByUUID db u = [r]) ∨ (u = UUID.Nil ∧ db.instances = [r])) := by
  unfold GetInstance at h
  cases hh : getInstancesHelper env db u with
  | error e => simp [hh] at h
  | ok ret =>
    simp only [hh] at h
    have hret : ret = [i] := by
      cases ret with
      | nil => cases h
      | cons a t =>
        cases t with
        | nil =>
          have h2 : Except.ok a = (Except.ok i : Except Err (InternalInstance Time)) := h
          rw [Except.ok.injEq] at h2
          rw [h2]
        | cons b t2 => cases h
    subst hret
    unfold getInstancesHelper at hh
    by_cases hu : u ≠ UUID.Nil
    · rw [if_pos hu] at hh
      obtain ⟨r, hr, hs⟩ := scanRows_singleton env hh
      exact ⟨r, hs, Or.inl ⟨hu, hr⟩⟩
    · rw [if_neg hu] at hh
      obtain ⟨r, hr, hs⟩ := scanRows_singleton env hh
      exact ⟨r, hs, Or.inr ⟨not_not.mp hu, orderByName_eq_singleton hr⟩⟩

theorem scanRow_BatchID (env : Env Time) {r : Row} {i : InternalInstance Time}
    (h : scanRow env r = .ok i) : i.BatchID = r.batchid ∧ i.UUID = r.uuid ∧ i.Name = r.name := by
  unfold scanRow at h
  split at h
  · simp at h
  · split at h
    · simp at h
    · split at h
      · simp at h
      · split at h
        · simp at h
        · simp only [Except.ok.injEq] at h
          subst h
          exact ⟨rfl, rfl, rfl⟩

/-- The row that a successful `GetInstance u` has read is every stored row of uuid `u`. -/
theorem GetInstance_ok_of_mem (env : Env Time) {db : DB} {u : UUID} {i : InternalInstance Time}
    {r : Row} (h : GetInstance env db u = .ok i) (hr : r ∈ db.instances) (hu : r.uuid = u) :
    scanRow env r = .ok i := by
  obtain ⟨r0, hs, hcase⟩ := GetInstance_ok env h
  rcases hcase with ⟨_, hsel⟩ | ⟨_, hall⟩
  · have hmem : r ∈ selectByUUID db u := by
      unfold selectByUUID
      rw [List.mem_filter]
      exact ⟨hr, by simpa using hu⟩
    rw [hsel, List.mem_singleton] at hmem
    rw [hmem]; exact hs
  · rw [hall, List.mem_singleton] at hr
    rw [hr]; exact hs

/-- The refusal of `DeleteInstance` for a stored instance that is assigned to a batch or
migrating: an error, and the database that was given. -/
theorem DeleteInstance_refused (env : Env Time) {db : DB} {r : Row} (hr : r ∈ db.instances)
    (h : r.batchid ≠ env.INVALID_DATABASE_ID ∨
         ∃ i, scanRow env r = .ok i ∧ env.IsMigrating i = true) :
    ∃ e, DeleteInstance env db r.uuid = (db, some e) := by
  unfold DeleteInstance
  cases hg : GetInstance env db r.uuid with
  | error e => exact ⟨e, rfl⟩
  | ok x =>
    have hx := GetInstance_ok_of_mem env hg hr rfl
    have hc : x.BatchID ≠ env.INVALID_DATABASE_ID ∨ env.IsMigrating x = true := by
      rcases h with hb | ⟨i, hi, hm⟩
      · left; rw [(scanRow_BatchID env hx).1]; exact hb
      · right
        rw [hx] at hi
        simp only [Except.ok.injEq] at hi
        rw [hi]; exact hm
    exact ⟨.cannotDelete x.Name, by simp only [if_pos hc]⟩

theorem filter_uuid_of_nodup {l : List Row} {r : Row}
    (hn : (l.map (fun x => x.uuid)).Nodup) (hr : r ∈ l) :
    l.filter (fun x => decide (x.uuid = r.uuid)) = [r] := by
  induction l with
  | nil => cases hr
  | cons a t ih =>
    rw [List.map_cons, List.nodup_cons] at hn
    rcases List.mem_cons.mp hr with h | h
    · subst h
      have ht : ∀ x ∈ t, x.uuid ≠ r.uuid := by
        intro x hx he
        exact hn.1 (by rw [← he]; exact List.mem_map_of_mem _ hx)
      rw [List.filter_cons_of_pos (by simp), filter_uuid_eq_nil ht]
    · have ha : a.uuid ≠ r.uuid := by
        intro he
        exact hn.1 (by rw [he]; exact List.mem_map_of_mem _ h)
      rw [List.filter_cons_of_neg (by simpa using ha)]
      exact ih hn.2 h

theorem selectByUUID_of_unique {db : DB} {r : Row} (hn : UniqueUUIDs db)
    (hr : r ∈ db.instances) : selectByUUID db r.uuid = [r] :=
  filter_uuid_of_nodup hn hr

theorem eq_singleton_of_mem_of_length {l : List Row} {r : Row} (hr : r ∈ l)
    (hl : l.length = 1) : l = [r] := by
  match l, hl with
  | [x], _ =>
    rw [List.mem_singleton] at hr
    rw [hr]

theorem scanRows_single (env : Env Time) {r : Row} {i : InternalInstance Time}
    (h : scanRow env r = .ok i) : scanRows env [r] = .ok [i] := by
  simp only [scanRows, h]

/-- A stored row that is the only one of its uuid and can be scanned is what `GetInstance`
returns, unless the uuid is all-zero and the table has other rows. -/
theorem GetInstance_of_mem (env : Env Time) {db : DB} {r : Row} {i : InternalInstance Time}
    (hn : UniqueUUIDs db) (hr : r ∈ db.instances)
    (hz : r.uuid ≠ UUID.Nil ∨ db.instances.length = 1) (hs : scanRow env r = .ok i) :
    GetInstance env db r.uuid = .ok i := by
  unfold GetInstance getInstancesHelper
  by_cases hu : r.uuid ≠ UUID.Nil
  · rw [if_pos hu, selectByUUID_of_unique hn hr, scanRows_single env hs]
  · have hl : db.instances.length = 1 := by
      rcases hz with h | h
      · exact absurd h hu
      · exact h
    have hall := eq_singleton_of_mem_of_length hr hl
    rw [if_neg hu]
    unfold selectAllOrdered
    rw [hall]
    simp only [orderByName, insertByName, scanRows_single env hs]

theorem execDelete_of_mem {db : DB} {r : Row} (hn : UniqueUUIDs db) (hr : r ∈ db.instances)
    (ho : r.uuid ∉ db.overrides) :
    execDelete db r.uuid =
      .ok ({ db with instances := db.instances.filter (fun x => decide (x.uuid ≠ r.uuid)) }, 1) := by
  unfold execDelete
  have hf := filter_uuid_of_nodup hn hr
  simp only [hf, ho, and_false, if_false, List.length_singleton]

/-- The successful path of `DeleteInstance`. -/
theorem DeleteInstance_ok (env : Env Time) {db : DB} {r : Row} {i : InternalInstance Time}
    (hn : UniqueUUIDs db) (hr : r ∈ db.instances)
    (hz : r.uuid ≠ UUID.Nil ∨ db.instances.length = 1) (hs : scanRow env r = .ok i)
    (hb : r.batchid = env.INVALID_DATABASE_ID) (hm : env.IsMigrating i = false)
    (ho : r.uuid ∉ db.overrides) :
    DeleteInstance env db r.uuid =
      ({ db with instances := db.instances.filter (fun x => decide (x.uuid ≠ r.uuid)) }, none) := by
  unfold DeleteInstance
  rw [GetInstance_of_mem env hn hr hz hs]
  have hc : ¬ (i.BatchID ≠ env.INVALID_DATABASE_ID ∨ env.IsMigrating i = true) := by
    rw [(scanRow_BatchID env hs).1, hb, hm]
    simp
  simp only [if_neg hc, execDelete_of_mem hn hr ho]
  simp

theorem length_filter_ne_of_unique {l : List Row} {r : Row}
    (hn : (l.map (fun x => x.uuid)).Nodup) (hr : r ∈ l) :
    (l.filter (fun x => decide (x.uuid ≠ r.uuid))).length + 1 = l.length := by
  have h1 := filter_uuid_of_nodup hn hr
  have h2 : (l.filter (fun x => decide (x.uuid = r.uuid))).length +
      (l.filter (fun x => decide (x.uuid ≠ r.uuid))).length = l.length := by
    have := List.length_eq_length_filter_add (l := l) (fun x => decide (x.uuid = r.uuid))
    rw [this]
    congr 2
    apply List.filter_congr
    intro x _
    simp
  rw [h1] at h2
  simp only [List.length_singleton] at h2
  omega

theorem GetInstance_absent (env : Env Time) {db : DB} {u : UUID}
    (hu : ∀ r ∈ db.instances, r.uuid ≠ u) (hz : u ≠ UUID.Nil ∨ db.instances = []) :
    GetInstance env db u = .error (.noInstanceExists u) := by
  unfold GetInstance getInstancesHelper
  by_cases hnil : u ≠ UUID.Nil
  · rw [if_pos hnil]
    unfold selectByUUID
    rw [filter_uuid_eq_nil hu]
    rfl
  · have he : db.instances = [] := by
      rcases hz with h | h
      · exact absurd h hnil
      · exact h
    rw [if_neg hnil]
    unfold selectAllOrdered
    rw [he]
    rfl

theorem liftLib_ok {α : Type} {x : Except String α} {a : α} (h : liftLib x = .ok a) :
    x = .ok a := by
  cases x with
  | error m => cases h
  | ok b =>
    have h2 : (Except.ok b : Except Err α) = .ok a := h
    rw [Except.ok.injEq] at h2
    rw [h2]

/-- What a successful `marshalInstance` returns. -/
theorem marshalInstance_ok (env : Env Time) {i : InternalInstance Time} {row : Row}
    (h : marshalInstance env i = .ok row) :
    env.marshalTime i.LastUpdateFromSource = .ok row.lastupdatefromsource ∧
    env.marshalTime i.LastManualUpdate = .ok row.lastmanualupdate ∧
    env.marshalDisks i.Disks = .ok row.disks ∧
    env.marshalNICs i.NICs = .ok row.nics ∧
    row.uuid = i.UUID ∧ row.inventorypath = i.InventoryPath ∧
    row.migrationstatus = i.MigrationStatus ∧
    row.migrationstatusstring = i.MigrationStatusString ∧
    row.sourceid = i.SourceID ∧ row.targetid = i.TargetID ∧ row.batchid = i.BatchID ∧
    row.name = i.Name ∧ row.architecture = i.Architecture ∧ row.os = i.OS ∧
    row.osversion = i.OSVersion ∧ row.numbercpus = i.NumberCPUs ∧
    row.memoryinmib = i.MemoryInMiB ∧ row.uselegacybios = i.UseLegacyBios ∧
    row.securebootenabled = i.SecureBootEnabled ∧ row.tpmpresent = i.TPMPresent ∧
    row.needsdiskimport = i.NeedsDiskImport := by
  unfold marshalInstance at h
  cases h1 : liftLib (env.marshalTime i.LastUpdateFromSource) with
  | error e => simp [h1] at h
  | ok s1 =>
    cases h2 : liftLib (env.marshalTime i.LastManualUpdate) with
    | error e => simp [h1, h2] at h
    | ok s2 =>
      cases h3 : liftLib (env.marshalDisks i.Disks) with
      | error e => simp [h1, h2, h3] at h
      | ok s3 =>
        cases h4 : liftLib (env.marshalNICs i.NICs) with
        | error e => simp [h1, h2, h3, h4] at h
        | ok s4 =>
          simp only [h1, h2, h3, h4, Except.ok.injEq] at h
          subst h
          exact ⟨liftLib_ok h1, liftLib_ok h2, liftLib_ok h3, liftLib_ok h4, rfl, rfl, rfl, rfl,
            rfl, rfl, rfl, rfl, rfl, rfl, rfl, rfl, rfl, rfl, rfl, rfl, rfl⟩

/-- Scanning the row an instance was marshalled to gives the instance back, when the library
encoders reproduce its time stamps and arrays. -/
theorem scanRow_marshalInstance (env : Env Time) {i : InternalInstance Time} {row : Row}
    (h : marshalInstance env i = .ok row) (hrt : EncodingRoundTrips env i) :
    scanRow env row = .ok i := by
  obtain ⟨m1, m2, m3, m4, f1, f2, f3, f4, f5, f6, f7, f8, f9, f10, f11, f12, f13, f14, f15,
    f16, f17⟩ := marshalInstance_ok env h
  obtain ⟨r1, r2, r3, r4⟩ := hrt
  unfold scanRow
  simp only [r1 _ m1, r2 _ m2, r3 _ m3, r4 _ m4, liftLib, f1, f2, f3, f4, f5, f6, f7, f8, f9,
    f10, f11, f12, f13, f14, f15, f16, f17]

/-- What a successful `AddInstance` of an `InternalInstance` has done. -/
theorem AddInstance_ok (env : Env Time) {db db1 : DB} {i : InternalInstance Time}
    (h : AddInstance env db (.internal i) = (db1, none)) :
    ∃ row, marshalInstance env i = .ok row ∧
      (∀ x ∈ db.instances, x.uuid ≠ i.UUID) ∧ row.sourceid ∈ db.sources ∧
      db1 = { db with instances := db.instances ++ [row] } := by
  unfold AddInstance at h
  cases hm : marshalInstance env i with
  | error e => simp [hm] at h
  | ok row =>
    simp only [hm] at h
    unfold execInsert at h
    by_cases hany : db.instances.any (fun x => decide (x.uuid = row.uuid)) = true
    · simp [hany] at h
    · by_cases hsrc : ¬ row.sourceid ∈ db.sources
      · simp [hany, hsrc] at h
      · rw [if_neg hany, if_neg hsrc] at h
        by_cases htgt : row.targetid ≠ env.INVALID_DATABASE_ID ∧ ¬ row.targetid ∈ db.targets
        · rw [if_pos htgt] at h
          simp at h
        rw [if_neg htgt] at h
        simp only [Prod.mk.injEq, and_true] at h
        refine ⟨row, rfl, ?_, not_not.mp hsrc, h.symm⟩
        intro x hx he
        apply hany
        rw [List.any_eq_true]
        refine ⟨x, hx, ?_⟩
        rw [(marshalInstance_ok env hm).2.2.2.2.1]
        simpa using he

theorem find_uuid_of_nodup {l : List Row} {r : Row}
    (hn : (l.map (fun x => x.uuid)).Nodup) (hr : r ∈ l) :
    l.find? (fun x => decide (x.uuid = r.uuid)) = some r := by
  induction l with
  | nil => cases hr
  | cons a t ih =>
    rw [List.map_cons, List.nodup_cons] at hn
    rcases List.mem_cons.mp hr with h | h
    · subst h
      simp
    · have ha : a.uuid ≠ r.uuid := by
        intro he
        exact hn.1 (by rw [he]; exact List.mem_map_of_mem _ h)
      rw [List.find?_cons_of_neg _ (by simpa using ha)]
      exact ih hn.2 h

theorem queryBatchid_of_unique {db : DB} {r : Row} (hn : UniqueUUIDs db)
    (hr : r ∈ db.instances) : queryBatchid db r.uuid = some r.batchid := by
  unfold queryBatchid
  rw [find_uuid_of_nodup hn hr]
  rfl

theorem setColumns_of_uuid_eq {n x : Row} (h : x.uuid = n.uuid) : setColumns n x = n := by
  cases n
  cases x
  simp only [setColumns] at *
  subst h
  rfl

/-- The path of `UpdateInstance` for a stored instance that is assigned to a batch. -/
theorem UpdateInstance_assigned (env : Env Time) {db : DB} {r : Row} {i : Instance Time}
    (hn : UniqueUUIDs db) (hr : r ∈ db.instances) (hu : i.GetUUID = r.uuid)
    (hb : r.batchid ≠ env.INVALID_DATABASE_ID) :
    UpdateInstance env db i =
      match queryBatchName db r.batchid with
      | none => (db, some .sqlNoRows)
      | some batchName => (db, some (.cannotUpdate i.GetName batchName)) := by
  unfold UpdateInstance
  rw [hu, queryBatchid_of_unique hn hr]
  simp only [if_pos hb]

/-- The path of `UpdateInstance` for a stored instance that is not assigned to a batch. -/
theorem UpdateInstance_unassigned (env : Env Time) {db : DB} {r row : Row}
    {i : InternalInstance Time} (hn : UniqueUUIDs db) (hr : r ∈ db.instances)
    (hu : i.UUID = r.uuid) (hb : r.batchid = env.INVALID_DATABASE_ID)
    (hm : marshalInstance env i = .ok row) (hsrc : row.sourceid ∈ db.sources)
    (htgt : row.targetid = env.INVALID_DATABASE_ID ∨ row.targetid ∈ db.targets) :
    UpdateInstance env db (.internal i) =
      ({ db with instances := db.instances.map (fun x => if x.uuid = r.uuid then row else x) },
       none) := by
  have hrow : row.uuid = r.uuid := by rw [(marshalInstance_ok env hm).2.2.2.2.1, hu]
  unfold UpdateInstance
  simp only [Instance.GetUUID]
  rw [hu, queryBatchid_of_unique hn hr]
  have hb2 : ¬ r.batchid ≠ env.INVALID_DATABASE_ID := not_not.mpr hb
  simp only [if_neg hb2, hm]
  unfold execUpdate
  have hf := filter_uuid_of_nodup hn hr
  have hfk : ¬ ([r] ≠ [] ∧ (¬ row.sourceid ∈ db.sources ∨
      (row.targetid ≠ env.INVALID_DATABASE_ID ∧ ¬ row.targetid ∈ db.targets))) := by
    rintro ⟨_, h1 | ⟨h2, h3⟩⟩
    · exact h1 hsrc
    · rcases htgt with h | h
      · exact h2 h
      · exact h3 h
  simp only [hf, if_neg hfk, List.length_singleton, one_ne_zero, if_false]
  congr 2
  apply List.map_congr_left
  intro x _
  by_cases hx : x.uuid = r.uuid
  · rw [if_pos hx, if_pos hx, setColumns_of_uuid_eq (by rw [hx, hrow])]
  · rw [if_neg hx, if_neg hx]

theorem SameOutsideStatus.refl (a : Row) : SameOutsideStatus a a :=
  ⟨rfl, rfl, rfl, rfl, rfl, rfl, rfl, rfl, rfl, rfl, rfl, rfl, rfl, rfl, rfl, rfl, rfl, rfl⟩

theorem SameOutsideStatus.trans {a b c : Row} (h1 : SameOutsideStatus a b)
    (h2 : SameOutsideStatus b c) : SameOutsideStatus a c := by
  obtain ⟨a1, a2, a3, a4, a5, a6, a7, a8, a9, a10, a11, a12, a13, a14, a15, a16, a17, a18⟩ := h1
  obtain ⟨b1, b2, b3, b4, b5, b6, b7, b8, b9, b10, b11, b12, b13, b14, b15, b16, b17, b18⟩ := h2
  exact ⟨b1.trans a1, b2.trans a2, b3.trans a3, b4.trans a4, b5.trans a5, b6.trans a6,
    b7.trans a7, b8.trans a8, b9.trans a9, b10.trans a10, b11.trans a11, b12.trans a12,
    b13.trans a13, b14.trans a14, b15.trans a15, b16.trans a16, b17.trans a17, b18.trans a18⟩

theorem SameOutsideStatus.batchid {a b : Row} (h : SameOutsideStatus a b) :
    b.batchid = a.batchid := h.2.2.2.2.2.2.1

/-- What `AddInstance` can do to the database. -/
theorem AddInstance_cases (env : Env Time) (db : DB) (i : Instance Time) :
    (AddInstance env db i).1 = db ∨
    ∃ row, (∀ x ∈ db.instances, x.uuid ≠ row.uuid) ∧
      (AddInstance env db i).1 = { db with instances := db.instances ++ [row] } := by
  cases i with
  | other u n => left; rfl
  | internal ii =>
    cases hres : AddInstance env db (.internal ii) with
    | mk db1 err =>
      cases err with
      | some e =>
        left
        unfold AddInstance at hres
        cases hm : marshalInstance env ii with
        | error e2 => simp only [hm, Prod.mk.injEq] at hres; exact hres.1.symm
        | ok row =>
          simp only [hm] at hres
          cases hx : execInsert env.INVALID_DATABASE_ID db row with
          | error e3 => simp only [hx, Prod.mk.injEq] at hres; exact hres.1.symm
          | ok db2 => simp [hx] at hres
      | none =>
        right
        obtain ⟨row, hm, hnew, _, hdb⟩ := AddInstance_ok env hres
        refine ⟨row, ?_, hdb⟩
        rw [(marshalInstance_ok env hm).2.2.2.2.1]
        exact hnew

theorem execUpdate_ok {noID : Int} {db : DB} {n : Row} {u : UUID} {res : DB × Nat}
    (h : execUpdate noID db n u = .ok res) :
    res.1 =
      { db with
        instances := db.instances.map (fun r => if r.uuid = u then setColumns n r else r) } := by
  unfold execUpdate at h
  dsimp only at h
  split at h
  · cases h
  · simp only [Except.ok.injEq] at h
    rw [← h]

theorem execDelete_ok {db : DB} {u : UUID} {res : DB × Nat}
    (h : execDelete db u = .ok res) :
    res.1 = { db with instances := db.instances.filter (fun x => decide (x.uuid ≠ u)) } := by
  unfold execDelete at h
  dsimp only at h
  split at h
  · cases h
  · simp only [Except.ok.injEq] at h
    rw [← h]

/-- What `UpdateInstance` can do to the database. -/
theorem UpdateInstance_cases (env : Env Time) (db : DB) (i : Instance Time) :
    (UpdateInstance env db i).1 = db ∨
    ∃ row u, queryBatchid db u = some env.INVALID_DATABASE_ID ∧
      (UpdateInstance env db i).1 =
        { db with instances :=
            db.instances.map (fun r => if r.uuid = u then setColumns row r else r) } := by
  unfold UpdateInstance
  cases hq : queryBatchid db i.GetUUID with
  | none => left; rfl
  | some batchID =>
    by_cases hb : batchID ≠ env.INVALID_DATABASE_ID
    · left
      simp only [if_pos hb]
      cases queryBatchName db batchID <;> rfl
    · simp only [if_neg hb]
      cases i with
      | other u n => left; rfl
      | internal ii =>
        simp only
        cases hm : marshalInstance env ii with
        | error e => left; rfl
        | ok row =>
          simp only
          cases hx : execUpdate env.INVALID_DATABASE_ID db row ii.UUID with
          | error e => left; rfl
          | ok res =>
            right
            refine ⟨row, ii.UUID, ?_, ?_⟩
            · rw [← not_not.mp hb]; exact hq
            · rw [← execUpdate_ok hx]
              obtain ⟨db1, k⟩ := res
              dsimp only
              split <;> rfl

/-- What `DeleteInstance` can do to the database. -/
theorem DeleteInstance_cases (env : Env Time) (db : DB) (u : UUID) :
    (DeleteInstance env db u).1 = db ∨
    ∃ i, GetInstance env db u = .ok i ∧ i.BatchID = env.INVALID_DATABASE_ID ∧
      (DeleteInstance env db u).1 =
        { db with instances := db.instances.filter (fun x => decide (x.uuid ≠ u)) } := by
  unfold DeleteInstance
  cases hg : GetInstance env db u with
  | error e => left; rfl
  | ok i =>
    by_cases hc : i.BatchID ≠ env.INVALID_DATABASE_ID ∨ env.IsMigrating i = true
    · left
      simp only [if_pos hc]
    · simp only [if_neg hc]
      cases hx : execDelete db u with
      | error e => left; rfl
      | ok res =>
        right
        refine ⟨i, rfl, ?_, ?_⟩
        · by_contra hne
          exact hc (Or.inl hne)
        · rw [← execDelete_ok hx]
          obtain ⟨db1, k⟩ := res
          dsimp only
          split <;> rfl

theorem map_uuid_map_of_preserving {l : List Row} (f : Row → Row)
    (hf : ∀ r, (f r).uuid = r.uuid) :
    (l.map f).map (fun r => r.uuid) = l.map (fun r => r.uuid) := by
  rw [List.map_map]
  apply List.map_congr_left
  intro r _
  exact hf r

theorem setColumns_uuid (n r : Row) : (setColumns n r).uuid = r.uuid := rfl

/-- One call keeps the UUIDs pairwise distinct, and keeps a row that is assigned to a batch:
the row stays, equal outside the three status columns, and unchanged altogether unless the
call is `UpdateInstanceStatus`. -/
theorem applyOp_keeps_assigned (env : Env Time) (db : DB) (x : Row) (op : Op Time)
    (hn : UniqueUUIDs db) (hx : x ∈ db.instances) (hb : x.batchid ≠ env.INVALID_DATABASE_ID) :
    UniqueUUIDs (applyOp env db op) ∧
    ∃ y ∈ (applyOp env db op).instances,
      SameOutsideStatus x y ∧ (op.isUpdateStatus = false → y = x) := by
  cases op with
  | add i =>
    simp only [applyOp]
    rcases AddInstance_cases env db i with h | ⟨row, hnew, h⟩
    · rw [h]; exact ⟨hn, x, hx, SameOutsideStatus.refl x, fun _ => rfl⟩
    · rw [h]
      refine ⟨?_, x, List.mem_append_left _ hx, SameOutsideStatus.refl x, fun _ => rfl⟩
      unfold UniqueUUIDs at *
      simp only [List.map_append, List.map_cons, List.map_nil]
      rw [List.nodup_append]
      refine ⟨hn, List.nodup_singleton _, ?_⟩
      intro a ha hb2
      rw [List.mem_singleton] at hb2
      rw [List.mem_map] at ha
      obtain ⟨z, hz, hza⟩ := ha
      exact hnew z hz (by rw [hza, hb2])
  | update i =>
    simp only [applyOp]
    rcases UpdateInstance_cases env db i with h | ⟨row, u, hq, h⟩
    · rw [h]; exact ⟨hn, x, hx, SameOutsideStatus.refl x, fun _ => rfl⟩
    · rw [h]
      have hxu : x.uuid ≠ u := by
        intro he
        rw [← he, queryBatchid_of_unique hn hx] at hq
        exact hb (Option.some.inj hq)
      refine ⟨?_, x, ?_, SameOutsideStatus.refl x, fun _ => rfl⟩
      · unfold UniqueUUIDs at *
        show ((db.instances.map _).map _).Nodup
        rw [map_uuid_map_of_preserving]
        · exact hn
        · intro r
          by_cases hr : r.uuid = u
          · rw [if_pos hr]; rfl
          · rw [if_neg hr]
      · show x ∈ db.instances.map _
        rw [List.mem_map]
        exact ⟨x, hx, by rw [if_neg hxu]⟩
  | delete u =>
    simp only [applyOp]
    rcases DeleteInstance_cases env db u with h | ⟨i, hg, hi, h⟩
    · rw [h]; exact ⟨hn, x, hx, SameOutsideStatus.refl x, fun _ => rfl⟩
    · rw [h]
      have hxu : x.uuid ≠ u := by
        intro he
        have hs := GetInstance_ok_of_mem env hg hx he
        rw [(scanRow_BatchID env hs).1] at hi
        exact hb hi
      refine ⟨?_, x, ?_, SameOutsideStatus.refl x, fun _ => rfl⟩
      · unfold UniqueUUIDs at *
        exact hn.sublist ((List.filter_sublist _).map _)
      · show x ∈ db.instances.filter _
        rw [List.mem_filter]
        exact ⟨hx, by simpa using hxu⟩
  | updateStatus u status statusString needsDiskImport =>
    simp only [applyOp, UpdateInstanceStatus, execUpdateStatus]
    refine ⟨?_, ?_⟩
    · unfold UniqueUUIDs at *
      show ((db.instances.map _).map _).Nodup
      rw [map_uuid_map_of_preserving]
      · exact hn
      · intro r
        by_cases hr : r.uuid = u
        · rw [if_pos hr]
        · rw [if_neg hr]
    · by_cases hxu : x.uuid = u
      · refine ⟨{ x with migrationstatus := status, migrationstatusstring := statusString,
                         needsdiskimport := needsDiskImport }, ?_, ?_, ?_⟩
        · rw [List.mem_map]
          exact ⟨x, hx, by rw [if_pos hxu]⟩
        · exact ⟨rfl, rfl, rfl, rfl, rfl, rfl, rfl, rfl, rfl, rfl, rfl, rfl, rfl, rfl, rfl,
            rfl, rfl, rfl⟩
        · intro hf; cases hf
      · refine ⟨x, ?_, SameOutsideStatus.refl x, fun _ => rfl⟩
        rw [List.mem_map]
        exact ⟨x, hx, by rw [if_neg hxu]⟩

/-- The invariant of `applyOp_keeps_assigned` along a sequence of calls. -/
theorem applyOps_keeps_assigned (env : Env Time) (ops : List (Op Time)) :
    ∀ (db : DB) (x : Row), UniqueUUIDs db → x ∈ db.instances →
      x.batchid ≠ env.INVALID_DATABASE_ID →
      UniqueUUIDs (applyOps env db ops) ∧
      ∃ y ∈ (applyOps env db ops).instances,
        SameOutsideStatus x y ∧ ((∀ op ∈ ops, op.isUpdateStatus = false) → y = x) := by
  induction ops with
  | nil =>
    intro db x hn hx _
    exact ⟨hn, x, hx, SameOutsideStatus.refl x, fun _ => rfl⟩
  | cons op rest ih =>
    intro db x hn hx hb
    obtain ⟨hn1, y1, hy1, hs1, he1⟩ := applyOp_keeps_assigned env db x op hn hx hb
    have hb1 : y1.batchid ≠ env.INVALID_DATABASE_ID := by rw [hs1.batchid]; exact hb
    obtain ⟨hn2, y, hy, hs2, he2⟩ := ih (applyOp env db op) y1 hn1 hy1 hb1
    refine ⟨hn2, y, hy, hs1.trans hs2, ?_⟩
    intro hall
    have h1 : y1 = x := he1 (hall op (List.mem_cons_self _ _))
    have h2 : y = y1 := he2 (fun o ho => hall o (List.mem_cons_of_mem _ ho))
    rw [h2, h1]

theorem Err.errClass_ne_validation (e : Err) : e.errClass ≠ .ValidationError := by
  cases e <;> simp [Err.errClass]

/-- What `AddInstance` returns for an `InternalInstance` that marshals. -/
theorem AddInstance_of_marshal (env : Env Time) {db : DB} {i : InternalInstance Time} {row : Row}
    (hm : marshalInstance env i = .ok row) :
    AddInstance env db (.internal i) =
      match execInsert env.INVALID_DATABASE_ID db row with
      | .error e => (db, some e)
      | .ok db1 => (db1, none) := by
  unfold AddInstance
  simp only [hm]

theorem execInsert_duplicate {noID : Int} {db : DB} {row : Row}
    (h : ∃ r ∈ db.instances, r.uuid = row.uuid) :
    execInsert noID db row = .error (.sqlConstraint "UNIQUE constraint failed: instances.uuid") := by
  unfold execInsert
  have hany : db.instances.any (fun x => decide (x.uuid = row.uuid)) = true := by
    rw [List.any_eq_true]
    obtain ⟨r, hr, he⟩ := h
    exact ⟨r, hr, by simpa using he⟩
  rw [if_pos hany]

theorem execInsert_missing_source {noID : Int} {db : DB} {row : Row}
    (hnew : ∀ x ∈ db.instances, x.uuid ≠ row.uuid) (hsrc : row.sourceid ∉ db.sources) :
    execInsert noID db row = .error (.sqlConstraint "FOREIGN KEY constraint failed") := by
  unfold execInsert
  have hany : ¬ db.instances.any (fun x => decide (x.uuid = row.uuid)) = true := by
    rw [List.any_eq_true]
    rintro ⟨x, hx, he⟩
    exact hnew x hx (by simpa using he)
  rw [if_neg hany, if_pos hsrc]

/-- An `execInsert` that is given a row whose source does not exist fails. -/
theorem execInsert_error_of_missing_source {noID : Int} {db : DB} {row : Row}
    (hsrc : row.sourceid ∉ db.sources) :
    ∃ e, execInsert noID db row = .error e := by
  unfold execInsert
  by_cases hany : db.instances.any (fun x => decide (x.uuid = row.uuid)) = true
  · exact ⟨_, by rw [if_pos hany]⟩
  · exact ⟨_, by rw [if_neg hany, if_pos hsrc]⟩

/-- The three checks of `Source.Validate` that come before the properties are looked at. -/
theorem Source.Validate_of_checks (env : ValidateEnv) (s : Source) (hid : 0 ≤ s.ID)
    (hname : s.Name ≠ "")
    (hlo : env.SOURCETYPE_COMMON ≤ s.SourceType) (hhi : s.SourceType ≤ env.SOURCETYPE_VMWARE) :
    Source.Validate env s =
      match s.Properties with
      | none => some (NewValidationErrf "Invalid source, properties can not be null" [])
      | some properties =>
        if s.SourceType = env.SOURCETYPE_COMMON then validateSourceTypeCommon env properties
        else if s.SourceType = env.SOURCETYPE_VMWARE then
          validateSourceTypeVMware env properties
        else none := by
  unfold Source.Validate
  have h1 : ¬ s.ID < 0 := not_lt.mpr hid
  have h3 : ¬ (s.SourceType < env.SOURCETYPE_COMMON ∨ s.SourceType > env.SOURCETYPE_VMWARE) := by
    intro h
    rcases h with h | h
    · exact absurd hlo (not_le.mpr h)
    · exact absurd hhi (not_le.mpr h)
  rw [if_neg h1, if_neg hname, if_neg h3]
  cases s.Properties with
  | none => rfl
  | some p =>
    dsimp only
    split <;> simp_all

/-- A source that `Source.Validate` accepts has passed the three first checks and has
properties. -/
theorem Source.Validate_none (env : ValidateEnv) (s : Source)
    (h : Source.Validate env s = none) :
    0 ≤ s.ID ∧ s.Name ≠ "" ∧ env.SOURCETYPE_COMMON ≤ s.SourceType ∧
    s.SourceType ≤ env.SOURCETYPE_VMWARE ∧ ∃ p, s.Properties = some p := by
  unfold Source.Validate at h
  by_cases h1 : s.ID < 0
  · rw [if_pos h1] at h; cases h
  · rw [if_neg h1] at h
    by_cases h2 : s.Name = ""
    · rw [if_pos h2] at h; cases h
    · rw [if_neg h2] at h
      by_cases h3 : s.SourceType < env.SOURCETYPE_COMMON ∨ s.SourceType > env.SOURCETYPE_VMWARE
      · rw [if_pos h3] at h; cases h
      · rw [if_neg h3] at h
        rw [not_or] at h3
        refine ⟨not_lt.mp h1, h2, not_lt.mp h3.1, not_lt.mp h3.2, ?_⟩
        cases hp : s.Properties with
        | none => rw [hp] at h; cases h
        | some p => exact ⟨p, rfl⟩

theorem validateSourceTypeCommon_none (env : ValidateEnv) (p : Bytes) :
    validateSourceTypeCommon env p = none ↔ env.unmarshalAny p = none := by
  unfold validateSourceTypeCommon
  cases env.unmarshalAny p <;> simp

theorem validateSourceTypeVMware_none (env : ValidateEnv) (p : Bytes) :
    validateSourceTypeVMware env p = none ↔
      ∃ props, env.unmarshalVMware p = .ok props ∧ env.urlParse props.Endpoint = none ∧
        props.Username ≠ "" ∧ props.Password ≠ "" := by
  unfold validateSourceTypeVMware
  cases hd : env.unmarshalVMware p with
  | error err => simp
  | ok props =>
    cases hu : env.urlParse props.Endpoint with
    | some err => simp [hu]
    | none =>
      by_cases h1 : props.Username = ""
      · simp [hu, h1]
      · by_cases h2 : props.Password = ""
        · simp [hu, h1, h2]
        · simp [hu, h1, h2]

theorem validateSourceTypeCommon_isErrValidation (env : ValidateEnv) (p : Bytes)
    (e : MigrationErr) (h : validateSourceTypeCommon env p = some e) :
    e.isErrValidation = true := by
  unfold validateSourceTypeCommon at h
  cases hu : env.unmarshalAny p with
  | none => rw [hu] at h; cases h
  | some err =>
    rw [hu] at h
    simp only [Option.some.injEq] at h
    rw [← h]; rfl

theorem validateSourceTypeVMware_isErrValidation (env : ValidateEnv) (p : Bytes)
    (e : MigrationErr) (h : validateSourceTypeVMware env p = some e) :
    e.isErrValidation = true := by
  unfold validateSourceTypeVMware at h
  cases hd : env.unmarshalVMware p with
  | error err =>
    rw [hd] at h
    simp only [Option.some.injEq] at h
    rw [← h]; rfl
  | ok props =>
    rw [hd] at h
    dsimp only at h
    cases hu : env.urlParse props.Endpoint with
    | some err =>
      rw [hu] at h
      simp only [Option.some.injEq] at h
      rw [← h]; rfl
    | none =>
      rw [hu] at h
      dsimp only at h
      by_cases h1 : props.Username = ""
      · rw [if_pos h1] at h
        simp only [Option.some.injEq] at h
        rw [← h]; rfl
      · rw [if_neg h1] at h
        by_cases h2 : props.Password = ""
        · rw [if_pos h2] at h
          simp only [Option.some.injEq] at h
          rw [← h]; rfl
        · rw [if_neg h2] at h
          cases h

/-- The run of `Transaction` when `db.BeginTx` fails: `f`, `tx.Commit` and `tx.Rollback` are
not called, and the error that is returned is made around the error of `db.BeginTx`. -/
theorem Transaction_beginTx_failed (w : TxRun) (err : GoErr) (h : w.beginTx = some err) :
    ((Transaction w).1 = [.beginTx, .execRollback] ∨ (Transaction w).1 = [.beginTx]) ∧
    (Transaction w).2 = some (.wrap "Failed to begin transaction: " err) := by
  unfold Transaction
  rw [h]
  dsimp only
  split
  · exact ⟨Or.inl rfl, rfl⟩
  · exact ⟨Or.inr rfl, rfl⟩

/-- The run of `Transaction` when `f` returns an error. -/
theorem Transaction_f_failed (w : TxRun) (err : GoErr) (hb : w.beginTx = none)
    (hf : w.f = some err) :
    ((Transaction w).1 = [.beginTx, .callF, .rollback, .warn] ∨
      (Transaction w).1 = [.beginTx, .callF, .rollback]) ∧
    (Transaction w).2 = some err := by
  unfold Transaction rollback
  rw [hb, hf]
  dsimp only
  cases w.rollback with
  | some e => exact ⟨Or.inl rfl, rfl⟩
  | none => exact ⟨Or.inr rfl, rfl⟩

/-- The run of `Transaction` when `f` returns nil. -/
theorem Transaction_f_ok (w : TxRun) (hb : w.beginTx = none) (hf : w.f = none) :
    (Transaction w).1 = [.beginTx, .callF, .commit] ∧
    (Transaction w).2 = if w.commit = some .ErrTxDone then none else w.commit := by
  unfold Transaction
  rw [hb, hf]
  dsimp only
  split
  · exact ⟨rfl, rfl⟩
  · exact ⟨rfl, rfl⟩

theorem checkFingerprints_none (username : String) (l : List String) :
    checkFingerprints username l = none ↔ username ∈ l := by
  induction l with
  | nil => simp [checkFingerprints]
  | cons cert rest ih =>
    unfold checkFingerprints
    by_cases h : cert = username
    · rw [if_pos h]
      simp [h]
    · rw [if_neg h, ih]
      constructor
      · intro hm; exact List.mem_cons_of_mem _ hm
      · intro hm
        rcases List.mem_cons.mp hm with h2 | h2
        · exact absurd h2.symm h
        · exact h2

theorem checkFingerprints_some (username : String) (l : List String) (h : username ∉ l) :
    checkFingerprints username l = some ⟨StatusForbidden, "Client certificate not found"⟩ := by
  induction l with
  | nil => rfl
  | cons cert rest ih =>
    unfold checkFingerprints
    have hne : ¬ cert = username := by
      intro he
      exact h (by rw [← he]; exact List.mem_cons_self _ _)
    rw [if_neg hne]
    exact ih (fun hm => h (List.mem_cons_of_mem _ hm))

theorem matchFingerprint_spec (fp : String) (l : List String) :
    ((matchFingerprint fp l).1 = true ↔ fp ∈ l) ∧
    ((matchFingerprint fp l).1 = true → (matchFingerprint fp l).2 = fp) ∧
    ((matchFingerprint fp l).1 = false → (matchFingerprint fp l).2 = "") := by
  induction l with
  | nil => simp [matchFingerprint]
  | cons x rest ih =>
    unfold matchFingerprint
    by_cases h : fp = x
    · rw [if_pos h]
      simp [h]
    · rw [if_neg h]
      refine ⟨?_, ih.2.1, ih.2.2⟩
      rw [ih.1]
      constructor
      · intro hm; exact List.mem_cons_of_mem _ hm
      · intro hm
        rcases List.mem_cons.mp hm with h2 | h2
        · exact absurd h2 h
        · exact h2

theorem Target.Validate_isErrValidation (env : TargetEnv) (t : Target) (e : MigrationErr)
    (h : t.Validate env = some e) : e.isErrValidation = true := by
  unfold Target.Validate at h
  split at h
  · simp only [Option.some.injEq] at h; rw [← h]; rfl
  · split at h
    · simp only [Option.some.injEq] at h; rw [← h]; rfl
    · split at h
      · simp only [Option.some.injEq] at h; rw [← h]; rfl
      · split at h
        · simp only [Option.some.injEq] at h; rw [← h]; rfl
        · split at h
          · simp only [Option.some.injEq] at h; rw [← h]; rfl
          · split at h
            · simp only [Option.some.injEq] at h; rw [← h]; rfl
            · cases h

/-- A target with a negative id, an empty name or an endpoint that `url.Parse` refuses does
not pass `Target.Validate`. -/
theorem Target.Validate_invalid (env : TargetEnv) (t : Target)
    (h : t.ID < 0 ∨ t.Name = "" ∨
      ∃ p endpoint, t.Properties = some p ∧ env.unmarshalEndpoint p = .ok endpoint ∧
        env.urlParse endpoint ≠ none) :
    ∃ e, t.Validate env = some e := by
  cases hv : t.Validate env with
  | some e => exact ⟨e, rfl⟩
  | none =>
    exfalso
    unfold Target.Validate at hv
    split at hv
    · cases hv
    · rename_i h1
      split at hv
      · cases hv
      · rename_i h2
        split at hv
        · cases hv
        · split at hv
          · cases hv
          · rename_i p hp
            split at hv
            · cases hv
            · rename_i endpoint hd
              split at hv
              · cases hv
              · rename_i hu
                rcases h with h | h | ⟨p2, ep2, hp2, hd2, hu2⟩
                · exact h1 h
                · exact h2 h
                · rw [hp] at hp2
                  simp only [Option.some.injEq] at hp2
                  subst hp2
                  rw [hd] at hd2
                  simp only [Except.ok.injEq] at hd2
                  subst hd2
                  exact hu2 hu

theorem textLT_asymm : ∀ (a b : List Char), textLT a b = true → textLT b a = false
  | [], [], h => by simp [textLT] at h
  | [], _ :: _, _ => by simp [textLT]
  | _ :: _, [], h => by simp [textLT] at h
  | x :: xs, y :: ys, h => by
    unfold textLT at h ⊢
    by_cases h1 : x.toNat < y.toNat
    · have h2 : ¬ y.toNat < x.toNat := by omega
      rw [if_neg h2, if_pos h1]
    · rw [if_neg h1] at h
      by_cases h2 : y.toNat < x.toNat
      · rw [if_pos h2] at h; cases h
      · rw [if_neg h2] at h
        rw [if_neg h2, if_neg h1]
        exact textLT_asymm xs ys h

/-- The order "not later than" of `textLT` is transitive. -/
theorem textLT_le_trans : ∀ (a b c : List Char),
    textLT b a = false → textLT c b = false → textLT c a = false
  | [], _, [], _, _ => by simp [textLT]
  | [], _, _ :: _, _, _ => by simp [textLT]
  | _ :: _, [], _, h1, _ => by simp [textLT] at h1
  | _ :: _, _ :: _, [], _, h2 => by simp [textLT] at h2
  | x :: xs, y :: ys, z :: zs, h1, h2 => by
    unfold textLT at h1 h2 ⊢
    by_cases hyx : y.toNat < x.toNat
    · rw [if_pos hyx] at h1; cases h1
    · rw [if_neg hyx] at h1
      by_cases hzy : z.toNat < y.toNat
      · rw [if_pos hzy] at h2; cases h2
      · rw [if_neg hzy] at h2
        by_cases hxy : x.toNat < y.toNat
        · have hzx : ¬ z.toNat < x.toNat := by omega
          have hxz : x.toNat < z.toNat := by omega
          rw [if_neg hzx, if_pos hxz]
        · rw [if_neg hxy] at h1
          by_cases hyz : y.toNat < z.toNat
          · have hzx : ¬ z.toNat < x.toNat := by omega
            have hxz : x.toNat < z.toNat := by omega
            rw [if_neg hzx, if_pos hxz]
          · rw [if_neg hyz] at h2
            have hzx : ¬ z.toNat < x.toNat := by omega
            have hxz : ¬ x.toNat < z.toNat := by omega
            rw [if_neg hzx, if_neg hxz]
            exact textLT_le_trans xs ys zs h1 h2

theorem insertByName_mem (r x : Row) (l : List Row) :
    x ∈ insertByName r l ↔ x = r ∨ x ∈ l := by
  rw [(insertByName_perm r l).mem_iff, List.mem_cons]

theorem insertByName_pairwise (r : Row) (l : List Row)
    (h : l.Pairwise (fun a b => textLT b.name.data a.name.data = false)) :
    (insertByName r l).Pairwise (fun a b => textLT b.name.data a.name.data = false) := by
  induction l with
  | nil => exact List.pairwise_singleton _ _
  | cons x xs ih =>
    rw [List.pairwise_cons] at h
    unfold insertByName
    by_cases hlt : textLT x.name.data r.name.data = true
    · rw [if_pos hlt]
      rw [List.pairwise_cons]
      refine ⟨?_, ih h.2⟩
      intro y hy
      rcases (insertByName_mem r y xs).mp hy with hy | hy
      · rw [hy]; exact textLT_asymm _ _ hlt
      · exact h.1 y hy
    · rw [if_neg hlt]
      have hxr : textLT x.name.data r.name.data = false := by simpa using hlt
      rw [List.pairwise_cons]
      refine ⟨?_, List.pairwise_cons.mpr h⟩
      intro y hy
      rcases List.mem_cons.mp hy with hy | hy
      · rw [hy]; exact hxr
      · exact textLT_le_trans _ _ _ hxr (h.1 y hy)

theorem orderByName_pairwise (l : List Row) :
    (orderByName l).Pairwise (fun a b => textLT b.name.data a.name.data = false) := by
  induction l with
  | nil => exact List.Pairwise.nil
  | cons x xs ih =>
    unfold orderByName
    exact insertByName_pairwise x _ ih

theorem scanRows_cons_ok (env : Env Time) {r : Row} {rs : List Row}
    {l : List (InternalInstance Time)} (h : scanRows env (r :: rs) = .ok l) :
    ∃ i ret, scanRow env r = .ok i ∧ scanRows env rs = .ok ret ∧ l = i :: ret := by
  unfold scanRows at h
  cases hr : scanRow env r with
  | error e => rw [hr] at h; cases h
  | ok i =>
    rw [hr] at h
    dsimp only at h
    cases hrs : scanRows env rs with
    | error e => rw [hrs] at h; cases h
    | ok ret =>
      rw [hrs] at h
      simp only [Except.ok.injEq] at h
      exact ⟨i, ret, rfl, rfl, h.symm⟩

theorem scanRows_mem (env : Env Time) :
    ∀ (rows : List Row) (l : List (InternalInstance Time)), scanRows env rows = .ok l →
      ∀ i ∈ l, ∃ r ∈ rows, scanRow env r = .ok i
  | [], l, h, i, hi => by
    simp only [scanRows, Except.ok.injEq] at h
    rw [← h] at hi
    cases hi
  | r :: rs, l, h, i, hi => by
    obtain ⟨i0, ret, h0, hret, hl⟩ := scanRows_cons_ok env h
    rw [hl] at hi
    rcases List.mem_cons.mp hi with hi | hi
    · exact ⟨r, List.mem_cons_self _ _, by rw [hi]; exact h0⟩
    · obtain ⟨r2, hr2, hs2⟩ := scanRows_mem env rs ret hret i hi
      exact ⟨r2, List.mem_cons_of_mem _ hr2, hs2⟩

theorem scanRows_ordered (env : Env Time) :
    ∀ (rows : List Row) (l : List (InternalInstance Time)), scanRows env rows = .ok l →
      rows.Pairwise (fun a b => textLT b.name.data a.name.data = false) → OrderedByName l
  | [], l, h, _ => by
    simp only [scanRows, Except.ok.injEq] at h
    rw [← h]
    exact List.Pairwise.nil
  | r :: rs, l, h, hp => by
    obtain ⟨i0, ret, h0, hret, hl⟩ := scanRows_cons_ok env h
    rw [List.pairwise_cons] at hp
    rw [hl]
    unfold OrderedByName
    rw [List.pairwise_cons]
    refine ⟨?_, scanRows_ordered env rs ret hret hp.2⟩
    intro i hi
    obtain ⟨r2, hr2, hs2⟩ := scanRows_mem env rs ret hret i hi
    rw [(scanRow_BatchID env hs2).2.2, (scanRow_BatchID env h0).2.2]
    exact hp.1 r2 hr2

/-- The result of `GetAllInstances` is in the order of the names. -/
theorem GetAllInstances_ordered (env : Env Time) {db : DB} {l : List (InternalInstance Time)}
    (h : GetAllInstances env db = .ok l) : OrderedByName l := by
  unfold GetAllInstances getInstancesHelper at h
  rw [if_neg (by simp)] at h
  exact scanRows_ordered env _ l h (orderByName_pairwise _)

/-- What a successful `scanRow` returns. -/
theorem scanRow_ok (env : Env Time) {r : Row} {i : InternalInstance Time}
    (h : scanRow env r = .ok i) :
    env.unmarshalTime r.lastupdatefromsource = .ok i.LastUpdateFromSource ∧
    env.unmarshalTime r.lastmanualupdate = .ok i.LastManualUpdate ∧
    env.unmarshalDisks r.disks = .ok i.Disks ∧
    env.unmarshalNICs r.nics = .ok i.NICs ∧
    i.UUID = r.uuid ∧ i.InventoryPath = r.inventorypath ∧
    i.MigrationStatus = r.migrationstatus ∧
    i.MigrationStatusString = r.migrationstatusstring ∧
    i.SourceID = r.sourceid ∧ i.TargetID = r.targetid ∧ i.BatchID = r.batchid ∧
    i.Name = r.name ∧ i.Architecture = r.architecture ∧ i.OS = r.os ∧
    i.OSVersion = r.osversion ∧ i.NumberCPUs = r.numbercpus ∧
    i.MemoryInMiB = r.memoryinmib ∧ i.UseLegacyBios = r.uselegacybios ∧
    i.SecureBootEnabled = r.securebootenabled ∧ i.TPMPresent = r.tpmpresent ∧
    i.NeedsDiskImport = r.needsdiskimport := by
  unfold scanRow at h
  cases h1 : liftLib (env.unmarshalTime r.lastupdatefromsource) with
  | error e => simp [h1] at h
  | ok s1 =>
    cases h2 : liftLib (env.unmarshalTime r.lastmanualupdate) with
    | error e => simp [h1, h2] at h
    | ok s2 =>
      cases h3 : liftLib (env.unmarshalDisks r.disks) with
      | error e => simp [h1, h2, h3] at h
      | ok s3 =>
        cases h4 : liftLib (env.unmarshalNICs r.nics) with
        | error e => simp [h1, h2, h3, h4] at h
        | ok s4 =>
          simp only [h1, h2, h3, h4, Except.ok.injEq] at h
          subst h
          exact ⟨liftLib_ok h1, liftLib_ok h2, liftLib_ok h3, liftLib_ok h4, rfl, rfl, rfl, rfl,
            rfl, rfl, rfl, rfl, rfl, rfl, rfl, rfl, rfl, rfl, rfl, rfl, rfl⟩

/-- When scanning the row an instance was marshalled to gives the instance back, the library
encoders have reproduced its time stamps and arrays. -/
theorem encodingRoundTrips_of_scanRow (env : Env Time) {i : InternalInstance Time} {row : Row}
    (h : marshalInstance env i = .ok row) (hs : scanRow env row = .ok i) :
    EncodingRoundTrips env i := by
  obtain ⟨m1, m2, m3, m4, _⟩ := marshalInstance_ok env h
  obtain ⟨u1, u2, u3, u4, _⟩ := scanRow_ok env hs
  refine ⟨?_, ?_, ?_, ?_⟩
  · intro s hs1
    rw [m1, Except.ok.injEq] at hs1
    rw [← hs1]; exact u1
  · intro s hs1
    rw [m2, Except.ok.injEq] at hs1
    rw [← hs1]; exact u2
  · intro s hs1
    rw [m3, Except.ok.injEq] at hs1
    rw [← hs1]; exact u3
  · intro s hs1
    rw [m4, Except.ok.injEq] at hs1
    rw [← hs1]; exact u4

/-- The result of `GetInstance` when the query selects the single row `r`: what scanning `r`
gives. -/
theorem GetInstance_of_select (env : Env Time) {db : DB} {u : UUID} {r : Row}
    (h : (if u ≠ UUID.Nil then selectByUUID db u else selectAllOrdered db) = [r]) :
    GetInstance env db u = scanRow env r := by
  unfold GetInstance getInstancesHelper
  by_cases hu : u ≠ UUID.Nil
  · rw [if_pos hu] at h ⊢
    rw [h]
    simp only [scanRows]
    cases scanRow env r <;> rfl
  · rw [if_neg hu] at h ⊢
    rw [h]
    simp only [scanRows]
    cases scanRow env r <;> rfl

/-- After a successful `AddInstance` of `i`, whose UUID is not the all-zero UUID unless the
table was empty, `GetInstance` of its UUID gives what scanning the new row gives. -/
theorem GetInstance_after_add (env : Env Time) {db db1 : DB} {i : InternalInstance Time}
    (hadd : AddInstance env db (.internal i) = (db1, none))
    (hz : i.UUID ≠ UUID.Nil ∨ db.instances = []) :
    ∃ row, marshalInstance env i = .ok row ∧ GetInstance env db1 i.UUID = scanRow env row := by
  obtain ⟨row, hm, hnew, _, hdb⟩ := AddInstance_ok env hadd
  have hu : row.uuid = i.UUID := (marshalInstance_ok env hm).2.2.2.2.1
  refine ⟨row, hm, ?_⟩
  subst hdb
  apply GetInstance_of_select
  by_cases hnil : i.UUID ≠ UUID.Nil
  · rw [if_pos hnil]
    unfold selectByUUID
    simp only [List.filter_append, filter_uuid_eq_nil hnew, List.nil_append]
    rw [List.filter_cons_of_pos (by simpa using hu)]
    simp only [List.filter_nil]
  · have he : db.instances = [] := by
      rcases hz with h | h
      · exact absurd h hnil
      · exact h
    rw [if_neg hnil]
    unfold selectAllOrdered
    simp only [he, List.nil_append, orderByName, insertByName]

/-- An error of `marshalInstance` is the error of a library call. -/
theorem marshalInstance_error (env : Env Time) {i : InternalInstance Time} {e : Err}
    (h : marshalInstance env i = .error e) : ∃ m, e = .library m := by
  have hl : ∀ {α : Type} (x : Except String α) (e : Err), liftLib x = .error e →
      ∃ m, e = .library m := by
    intro α x e hx
    cases x with
    | ok a => cases hx
    | error m =>
      have h2 : (Except.error (.library m) : Except Err α) = .error e := hx
      rw [Except.error.injEq] at h2
      exact ⟨m, h2.symm⟩
  unfold marshalInstance at h
  cases h1 : liftLib (env.marshalTime i.LastUpdateFromSource) with
  | error e1 =>
    simp only [h1, Except.error.injEq] at h
    rw [← h]; exact hl _ _ h1
  | ok s1 =>
    cases h2 : liftLib (env.marshalTime i.LastManualUpdate) with
    | error e2 =>
      simp only [h1, h2, Except.error.injEq] at h
      rw [← h]; exact hl _ _ h2
    | ok s2 =>
      cases h3 : liftLib (env.marshalDisks i.Disks) with
      | error e3 =>
        simp only [h1, h2, h3, Except.error.injEq] at h
        rw [← h]; exact hl _ _ h3
      | ok s3 =>
        cases h4 : liftLib (env.marshalNICs i.NICs) with
        | error e4 =>
          simp only [h1, h2, h3, h4, Except.error.injEq] at h
          rw [← h]; exact hl _ _ h4
        | ok s4 => simp [h1, h2, h3, h4] at h

/-- The path of `UpdateInstance` for a stored instance that is not assigned to a batch, when
the record refers to a source or to a target that does not exist. -/
theorem UpdateInstance_missing_reference (env : Env Time) {db : DB} {r row : Row}
    {i : InternalInstance Time} (hn : UniqueUUIDs db) (hr : r ∈ db.instances)
    (hu : i.UUID = r.uuid) (hb : r.batchid = env.INVALID_DATABASE_ID)
    (hm : marshalInstance env i = .ok row)
    (href : row.sourceid ∉ db.sources ∨
      (row.targetid ≠ env.INVALID_DATABASE_ID ∧ row.targetid ∉ db.targets)) :
    UpdateInstance env db (.internal i) =
      (db, some (.sqlConstraint "FOREIGN KEY constraint failed")) := by
  unfold UpdateInstance
  simp only [Instance.GetUUID]
  rw [hu, queryBatchid_of_unique hn hr]
  have hb2 : ¬ r.batchid ≠ env.INVALID_DATABASE_ID := not_not.mpr hb
  simp only [if_neg hb2, hm]
  unfold execUpdate
  have hf := filter_uuid_of_nodup hn hr
  have hfk : [r] ≠ [] ∧ (¬ row.sourceid ∈ db.sources ∨
      (row.targetid ≠ env.INVALID_DATABASE_ID ∧ ¬ row.targetid ∈ db.targets)) :=
    ⟨List.cons_ne_nil _ _, href⟩
  simp only [hf, if_pos hfk]

/-- The result of `AddInstance` when the table holds a row of the UUID of the instance. -/
theorem AddInstance_duplicate (env : Env Time) {db : DB} {i : InternalInstance Time}
    (hdup : ∃ r ∈ db.instances, r.uuid = i.UUID) :
    AddInstance env db (.internal i) =
      match marshalInstance env i with
      | .error e => (db, some e)
      | .ok _ => (db, some (.sqlConstraint "UNIQUE constraint failed: instances.uuid")) := by
  cases hm : marshalInstance env i with
  | error e =>
    unfold AddInstance
    simp only [hm]
  | ok row =>
    have hu : row.uuid = i.UUID := (marshalInstance_ok env hm).2.2.2.2.1
    rw [AddInstance_of_marshal env hm, execInsert_duplicate (by rw [hu]; exact hdup)]

/-- A table with pairwise distinct UUIDs has pairwise distinct UUIDs after `AddInstance`. -/
theorem AddInstance_keeps_unique (env : Env Time) {db : DB} (hn : UniqueUUIDs db)
    (j : Instance Time) : UniqueUUIDs (AddInstance env db j).1 := by
  rcases AddInstance_cases env db j with h | ⟨r2, hnew, h⟩
  · rw [h]; exact hn
  · rw [h]
    unfold UniqueUUIDs at *
    simp only [List.map_append, List.map_cons, List.map_nil]
    rw [List.nodup_append]
    refine ⟨hn, List.nodup_singleton _, ?_⟩
    intro a ha hb2
    rw [List.mem_singleton] at hb2
    rw [List.mem_map] at ha
    obtain ⟨z, hz, hza⟩ := ha
    exact hnew z hz (by rw [hza, hb2])

end Lemmas

/-! ## The claims -/

section Claims

variable {Time : Type}

/-- C1 (amended): in a table with pairwise distinct UUIDs, for a stored instance whose
`batchid` is set, `UpdateInstance` with that UUID returns an error and the database it was
given, whatever the new record carries.  The error is the "cannot update while assigned to
batch" error, of class `OperationNotPermitted`, when the batch row exists; when table
`batches` has no row of that id it is the `sql.ErrNoRows` of the batch name lookup. -/
theorem C1_update_refused_when_assigned (env : Env Time) (db : DB) (r : Row) (i : Instance Time)
    (hn : UniqueUUIDs db) (hr : r ∈ db.instances) (hu : i.GetUUID = r.uuid)
    (hb : r.batchid ≠ env.INVALID_DATABASE_ID) :
    (∃ e, UpdateInstance env db i = (db, some e)) ∧
    (∀ batchName, queryBatchName db r.batchid = some batchName →
      UpdateInstance env db i = (db, some (.cannotUpdate i.GetName batchName)) ∧
      (Err.cannotUpdate i.GetName batchName).errClass = .OperationNotPermitted) ∧
    (queryBatchName db r.batchid = none → UpdateInstance env db i = (db, some .sqlNoRows)) := by
  have h := UpdateInstance_assigned env hn hr hu hb
  refine ⟨?_, ?_, ?_⟩
  · cases hq : queryBatchName db r.batchid with
    | none => rw [hq] at h; exact ⟨_, h⟩
    | some nm => rw [hq] at h; exact ⟨_, h⟩
  · intro nm hq
    rw [hq] at h
    exact ⟨h, rfl⟩
  · intro hq
    rw [hq] at h
    exact h

/-- Witness of C1 (amended) on a table with an unassigned row and a row assigned to batch 1:
the update of the assigned row is refused with the error that names the batch. -/
theorem C1_update_refused_when_assigned_witness :
    UniqueUUIDs (sampleDB [rowA, rowC] []) ∧ rowC ∈ (sampleDB [rowA, rowC] []).instances ∧
    rowC.batchid ≠ sampleEnv.INVALID_DATABASE_ID ∧
    UpdateInstance sampleEnv (sampleDB [rowA, rowC] [])
        (.internal (sampleInstance (UUID.ofByte 3) "Renamed" 1 (-1)))
      = (sampleDB [rowA, rowC] [], some (.cannotUpdate "Renamed" "TestBatch")) :=
  ⟨by decide, by decide, by decide,
   ((C1_update_refused_when_assigned sampleEnv (sampleDB [rowA, rowC] []) rowC
      (.internal (sampleInstance (UUID.ofByte 3) "Renamed" 1 (-1)))
      (by decide) (by decide) rfl (by decide)).2.1 "TestBatch" (by decide)).1⟩

/-- Counterexample to C1 as stated: `AddInstance` stores an instance whose `BatchID` is 7
although table `batches` has no row 7; its `batchid` is set, yet `UpdateInstance` returns
`sql.ErrNoRows` from the batch name lookup, which is not of class `OperationNotPermitted`. -/
theorem C1_counterexample :
    AddInstance sampleEnv (sampleDB [] []) (.internal instD) = (sampleDB [rowD] [], none) ∧
    rowD ∈ (sampleDB [rowD] []).instances ∧
    rowD.batchid ≠ sampleEnv.INVALID_DATABASE_ID ∧
    UpdateInstance sampleEnv (sampleDB [rowD] []) (.internal instD)
      = (sampleDB [rowD] [], some .sqlNoRows) ∧
    Err.sqlNoRows.errClass ≠ .OperationNotPermitted := by
  decide

/-- C2: for a stored instance that is assigned to a batch (its `batchid` is not
`INVALID_DATABASE_ID`) or for which `IsMigrating` holds, `DeleteInstance` with its UUID returns
an error and the database it returns is the one it was given, so the row is still present. -/
theorem C2_delete_refused_when_assigned_or_migrating (env : Env Time) (db : DB) (r : Row)
    (hr : r ∈ db.instances)
    (h : r.batchid ≠ env.INVALID_DATABASE_ID ∨
         ∃ i, scanRow env r = .ok i ∧ env.IsMigrating i = true) :
    (∃ e, DeleteInstance env db r.uuid = (db, some e)) ∧
    r ∈ (DeleteInstance env db r.uuid).1.instances := by
  obtain ⟨e, he⟩ := DeleteInstance_refused env hr h
  exact ⟨⟨e, he⟩, by rw [he]; exact hr⟩

/-- Witness of C2 on a migrating row that is not assigned to a batch. -/
theorem C2_delete_refused_when_assigned_or_migrating_witness :
    rowB ∈ (sampleDB [rowA, rowB, rowC] []).instances ∧
    (scanRow sampleEnv rowB = .ok instB ∧ sampleEnv.IsMigrating instB = true) ∧
    (∃ e, DeleteInstance sampleEnv (sampleDB [rowA, rowB, rowC] []) rowB.uuid
        = (sampleDB [rowA, rowB, rowC] [], some e)) ∧
    rowB ∈ (DeleteInstance sampleEnv (sampleDB [rowA, rowB, rowC] []) rowB.uuid).1.instances :=
  ⟨by decide, by decide,
   C2_delete_refused_when_assigned_or_migrating sampleEnv (sampleDB [rowA, rowB, rowC] []) rowB
     (by decide) (Or.inr ⟨instB, by decide, by decide⟩)⟩

/-- C3: deleting a stored instance that has an overrides row fails and leaves the database as
it was, so the instance row remains, whatever its batch and migration state.  Once the
overrides row has been deleted, the deletion of an instance that is not assigned to a batch
and not migrating succeeds: it returns no error, the database is the one without the row of
that UUID, the row is gone, the table has one row less, and a following `GetInstance` of the
UUID fails. -/
theorem C3_delete_refused_while_overrides_exist (env : Env Time) (db : DB) (r : Row)
    (hr : r ∈ db.instances) (ho : r.uuid ∈ db.overrides) :
    (∃ e, DeleteInstance env db r.uuid = (db, some e)) ∧
    r ∈ (DeleteInstance env db r.uuid).1.instances ∧
    (UniqueUUIDs db → (r.uuid ≠ UUID.Nil ∨ db.instances.length = 1) →
      r.batchid = env.INVALID_DATABASE_ID →
      (∃ i, scanRow env r = .ok i ∧ env.IsMigrating i = false) →
      DeleteInstance env
          { db with overrides := db.overrides.filter (fun v => decide (v ≠ r.uuid)) } r.uuid
        = ({ db with
              instances := db.instances.filter (fun x => decide (x.uuid ≠ r.uuid)),
              overrides := db.overrides.filter (fun v => decide (v ≠ r.uuid)) }, none) ∧
      r ∉ db.instances.filter (fun x => decide (x.uuid ≠ r.uuid)) ∧
      (db.instances.filter (fun x => decide (x.uuid ≠ r.uuid))).length + 1
        = db.instances.length ∧
      GetInstance env
          { db with
            instances := db.instances.filter (fun x => decide (x.uuid ≠ r.uuid)),
            overrides := db.overrides.filter (fun v => decide (v ≠ r.uuid)) } r.uuid
        = .error (.noInstanceExists r.uuid)) := by
  have key : ∃ e, DeleteInstance env db r.uuid = (db, some e) := by
    unfold DeleteInstance
    cases hg : GetInstance env db r.uuid with
    | error e => exact ⟨e, rfl⟩
    | ok x =>
      by_cases hc : x.BatchID ≠ env.INVALID_DATABASE_ID ∨ env.IsMigrating x = true
      · exact ⟨.cannotDelete x.Name, by simp only [if_pos hc]⟩
      · refine ⟨.sqlConstraint "FOREIGN KEY constraint failed", ?_⟩
        have hne : db.instances.filter (fun x => decide (x.uuid = r.uuid)) ≠ [] := by
          intro he
          have hmem : r ∈ db.instances.filter (fun x => decide (x.uuid = r.uuid)) := by
            rw [List.mem_filter]; exact ⟨hr, by simp⟩
          rw [he] at hmem
          cases hmem
        simp only [if_neg hc]
        unfold execDelete
        simp only [if_pos (And.intro hne ho)]
  obtain ⟨e, he⟩ := key
  refine ⟨⟨e, he⟩, by rw [he]; exact hr, ?_⟩
  intro hn hz hb hi
  obtain ⟨i, hs, hm⟩ := hi
  have hno : r.uuid ∉ db.overrides.filter (fun v => decide (v ≠ r.uuid)) := by
    simp [List.mem_filter]
  have hdel := @DeleteInstance_ok Time env
    { db with overrides := db.overrides.filter (fun v => decide (v ≠ r.uuid)) } r i
    hn hr hz hs hb hm hno
  have hlen := length_filter_ne_of_unique hn hr
  refine ⟨hdel, ?_, hlen, ?_⟩
  · intro hmem
    have := (List.mem_filter.mp hmem).2
    simp at this
  · apply GetInstance_absent
    · intro x hx
      have := (List.mem_filter.mp hx).2
      simpa using this
    · rcases hz with h | h
      · exact Or.inl h
      · right
        have h0 : (db.instances.filter (fun x => decide (x.uuid ≠ r.uuid))).length = 0 := by
          omega
        exact List.length_eq_zero.mp h0

/-- Witness of C3: `rowA` is neither assigned nor migrating and has an overrides row.  The
deletion is refused; without the overrides row it returns no error and leaves the database
that holds `rowC` only. -/
theorem C3_delete_refused_while_overrides_exist_witness :
    rowA ∈ (sampleDB [rowA, rowC] [UUID.ofByte 1]).instances ∧
    rowA.uuid ∈ (sampleDB [rowA, rowC] [UUID.ofByte 1]).overrides ∧
    (∃ e, DeleteInstance sampleEnv (sampleDB [rowA, rowC] [UUID.ofByte 1]) rowA.uuid
        = (sampleDB [rowA, rowC] [UUID.ofByte 1], some e)) ∧
    DeleteInstance sampleEnv
        { sampleDB [rowA, rowC] [UUID.ofByte 1] with
          overrides := (sampleDB [rowA, rowC] [UUID.ofByte 1]).overrides.filter
            (fun v => decide (v ≠ rowA.uuid)) } rowA.uuid
      = ({ sampleDB [rowA, rowC] [UUID.ofByte 1] with
            instances := (sampleDB [rowA, rowC] [UUID.ofByte 1]).instances.filter
              (fun x => decide (x.uuid ≠ rowA.uuid)),
            overrides := (sampleDB [rowA, rowC] [UUID.ofByte 1]).overrides.filter
              (fun v => decide (v ≠ rowA.uuid)) }, none) ∧
    DeleteInstance sampleEnv (sampleDB [rowA, rowC] []) rowA.uuid
      = (sampleDB [rowC] [], none) ∧
    rowA ∉ (sampleDB [rowC] []).instances :=
  ⟨by decide, by decide,
   (C3_delete_refused_while_overrides_exist sampleEnv (sampleDB [rowA, rowC] [UUID.ofByte 1])
      rowA (by decide) (by decide)).1,
   ((C3_delete_refused_while_overrides_exist sampleEnv (sampleDB [rowA, rowC] [UUID.ofByte 1])
      rowA (by decide) (by decide)).2.2 (by decide) (Or.inl (by decide)) (by decide)
      ⟨instA, by decide, by decide⟩).1,
   by decide, by decide⟩

/-- C4: invariant of table `instances` under `AddInstance`, `UpdateInstance`, `DeleteInstance`
and `UpdateInstanceStatus`, with UUIDs pairwise distinct.  Once a row has `batchid` set,
after any finite sequence of these calls the UUIDs are still pairwise distinct and a row is
present that has the original value in every column other than `migrationstatus`,
`migrationstatusstring` and `needsdiskimport`; if no call of the sequence is
`UpdateInstanceStatus`, the row itself is still present, unchanged. -/
theorem C4_assigned_row_is_frozen (env : Env Time) (db : DB) (r : Row) (ops : List (Op Time))
    (hn : UniqueUUIDs db) (hr : r ∈ db.instances) (hb : r.batchid ≠ env.INVALID_DATABASE_ID) :
    UniqueUUIDs (applyOps env db ops) ∧
    (∃ r2 ∈ (applyOps env db ops).instances, SameOutsideStatus r r2) ∧
    ((∀ op ∈ ops, op.isUpdateStatus = false) → r ∈ (applyOps env db ops).instances) := by
  obtain ⟨hn2, y, hy, hs, he⟩ := applyOps_keeps_assigned env ops db r hn hr hb
  refine ⟨hn2, ⟨y, hy, hs⟩, ?_⟩
  intro hall
  rw [← he hall]
  exact hy

/-- Witness of C4: the row assigned to batch 1 survives an update, a delete, a status update
and two inserts; only the status update has changed it. -/
theorem C4_assigned_row_is_frozen_witness :
    UniqueUUIDs (sampleDB [rowA, rowC] []) ∧ rowC ∈ (sampleDB [rowA, rowC] []).instances ∧
    rowC.batchid ≠ sampleEnv.INVALID_DATABASE_ID ∧
    ∃ r2 ∈ (applyOps sampleEnv (sampleDB [rowA, rowC] []) sampleOps).instances,
      SameOutsideStatus rowC r2 :=
  ⟨by decide, by decide, by decide,
   (C4_assigned_row_is_frozen sampleEnv (sampleDB [rowA, rowC] []) rowC sampleOps
      (by decide) (by decide) (by decide)).2.1⟩

/-- C5 (amended): `UpdateInstance` looks at the batch assignment only, not at `IsMigrating`.
For a stored instance for which `IsMigrating` holds, in a table with pairwise distinct UUIDs:
when it is assigned to a batch the update fails and the database is unchanged; when it is not
assigned to any batch, the update of a record that marshals, whose source exists and whose
target is unset or exists succeeds and replaces the stored row by the record, and the update
of a record that marshals and refers to a missing source or target is refused by the
statement and the database is unchanged.  `DeleteInstance` of the same instance is refused in
every case. -/
theorem C5_update_ignores_migration_status (env : Env Time) (db : DB) (r : Row)
    (stored i : InternalInstance Time) (hn : UniqueUUIDs db) (hr : r ∈ db.instances)
    (hs : scanRow env r = .ok stored) (hmig : env.IsMigrating stored = true)
    (hu : i.UUID = r.uuid) :
    (r.batchid ≠ env.INVALID_DATABASE_ID →
      ∃ e, UpdateInstance env db (.internal i) = (db, some e)) ∧
    (r.batchid = env.INVALID_DATABASE_ID →
      ∀ row, marshalInstance env i = .ok row → row.sourceid ∈ db.sources →
        (row.targetid = env.INVALID_DATABASE_ID ∨ row.targetid ∈ db.targets) →
        UpdateInstance env db (.internal i) =
          ({ db with
              instances := db.instances.map (fun x => if x.uuid = r.uuid then row else x) },
           none)) ∧
    (∃ e, DeleteInstance env db r.uuid = (db, some e)) ∧
    (r.batchid = env.INVALID_DATABASE_ID →
      ∀ row, marshalInstance env i = .ok row →
        (row.sourceid ∉ db.sources ∨
          (row.targetid ≠ env.INVALID_DATABASE_ID ∧ row.targetid ∉ db.targets)) →
        UpdateInstance env db (.internal i) =
          (db, some (.sqlConstraint "FOREIGN KEY constraint failed"))) := by
  refine ⟨?_, ?_, DeleteInstance_refused env hr (Or.inr ⟨stored, hs, hmig⟩), ?_⟩
  · intro hb
    have h := UpdateInstance_assigned env (i := Instance.internal i) hn hr hu hb
    cases hq : queryBatchName db r.batchid with
    | none => rw [hq] at h; exact ⟨_, h⟩
    | some nm => rw [hq] at h; exact ⟨_, h⟩
  · intro hb row hm hsrc htgt
    exact UpdateInstance_unassigned env hn hr hu hb hm hsrc htgt
  · intro hb row hm href
    exact UpdateInstance_missing_reference env hn hr hu hb hm href

/-- Witness of C5 (amended): the migrating, unassigned `rowB` is overwritten by an update
whose record refers to the source and the target of the sample database; an update whose
record refers to target 99, which does not exist, is refused. -/
theorem C5_update_ignores_migration_status_witness :
    UniqueUUIDs (sampleDB [rowA, rowB] []) ∧ rowB ∈ (sampleDB [rowA, rowB] []).instances ∧
    scanRow sampleEnv rowB = .ok instB ∧ sampleEnv.IsMigrating instB = true ∧
    UpdateInstance sampleEnv (sampleDB [rowA, rowB] [])
        (.internal (sampleInstance (UUID.ofByte 2) "Renamed" 1 (-1)))
      = ({ sampleDB [rowA, rowB] [] with
            instances := (sampleDB [rowA, rowB] []).instances.map
              (fun x => if x.uuid = rowB.uuid then sampleRow (UUID.ofByte 2) "Renamed" 1 (-1)
                        else x) },
         none) ∧
    UpdateInstance sampleEnv (sampleDB [rowA, rowB] [])
        (.internal { sampleInstance (UUID.ofByte 2) "Renamed" 1 (-1) with TargetID := 99 })
      = (sampleDB [rowA, rowB] [], some (.sqlConstraint "FOREIGN KEY constraint failed")) :=
  ⟨by decide, by decide, by decide, by decide,
   (C5_update_ignores_migration_status sampleEnv (sampleDB [rowA, rowB] []) rowB instB
      (sampleInstance (UUID.ofByte 2) "Renamed" 1 (-1))
      (by decide) (by decide) (by decide) (by decide) rfl).2.1 (by decide)
      (sampleRow (UUID.ofByte 2) "Renamed" 1 (-1)) (by decide) (by decide)
      (Or.inr (by decide)),
   (C5_update_ignores_migration_status sampleEnv (sampleDB [rowA, rowB] []) rowB instB
      { sampleInstance (UUID.ofByte 2) "Renamed" 1 (-1) with TargetID := 99 }
      (by decide) (by decide) (by decide) (by decide) rfl).2.2.2 (by decide)
      { sampleRow (UUID.ofByte 2) "Renamed" 1 (-1) with targetid := 99 } (by decide)
      (Or.inr ⟨by decide, by decide⟩)⟩

/-- Counterexample to C5 as stated: the stored instance of `rowB` is migrating and not
assigned to a batch; `UpdateInstance` with its UUID succeeds and overwrites the row (name and
status change). -/
theorem C5_counterexample :
    GetInstance sampleEnv (sampleDB [rowB] []) (UUID.ofByte 2) = .ok instB ∧
    sampleEnv.IsMigrating instB = true ∧
    instB.BatchID = sampleEnv.INVALID_DATABASE_ID ∧
    UpdateInstance sampleEnv (sampleDB [rowB] [])
        (.internal (sampleInstance (UUID.ofByte 2) "Renamed" 1 (-1)))
      = (sampleDB [sampleRow (UUID.ofByte 2) "Renamed" 1 (-1)] [], none) ∧
    sampleDB [sampleRow (UUID.ofByte 2) "Renamed" 1 (-1)] [] ≠ sampleDB [rowB] [] := by
  decide

/-- C6: `UpdateInstanceStatus` returns no error, whatever the batch assignment.  Position by
position the new table has the rows of the old one: a row of UUID `u` keeps every column
other than `migrationstatus`, `migrationstatusstring` and `needsdiskimport`, which take the
given arguments; every other row is unchanged.  No row is added or removed and the other
tables are untouched. -/
theorem C6_update_status_frame (db : DB) (u : UUID) (status : Int) (statusString : String)
    (needsDiskImport : Bool) :
    (UpdateInstanceStatus db u status statusString needsDiskImport).2 = none ∧
    List.Forall₂
      (fun r r2 => SameOutsideStatus r r2 ∧
        (r.uuid = u → r2.migrationstatus = status ∧ r2.migrationstatusstring = statusString ∧
          r2.needsdiskimport = needsDiskImport) ∧
        (r.uuid ≠ u → r2 = r))
      db.instances (UpdateInstanceStatus db u status statusString needsDiskImport).1.instances ∧
    (UpdateInstanceStatus db u status statusString needsDiskImport).1.instances.length
      = db.instances.length ∧
    (UpdateInstanceStatus db u status statusString needsDiskImport).1.batches = db.batches ∧
    (UpdateInstanceStatus db u status statusString needsDiskImport).1.sources = db.sources ∧
    (UpdateInstanceStatus db u status statusString needsDiskImport).1.overrides
      = db.overrides ∧
    (UpdateInstanceStatus db u status statusString needsDiskImport).1.targets
      = db.targets := by
  refine ⟨rfl, ?_, ?_, rfl, rfl, rfl, rfl⟩
  · show List.Forall₂ _ db.instances (db.instances.map _)
    rw [List.forall₂_map_right_iff]
    apply List.forall₂_same.mpr
    intro r _
    by_cases h : r.uuid = u
    · rw [if_pos h]
      exact ⟨⟨rfl, rfl, rfl, rfl, rfl, rfl, rfl, rfl, rfl, rfl, rfl, rfl, rfl, rfl, rfl, rfl,
        rfl, rfl⟩, fun _ => ⟨rfl, rfl, rfl⟩, fun hne => absurd h hne⟩
    · rw [if_neg h]
      exact ⟨⟨rfl, rfl, rfl, rfl, rfl, rfl, rfl, rfl, rfl, rfl, rfl, rfl, rfl, rfl, rfl, rfl,
        rfl, rfl⟩, fun he => absurd he h, fun _ => rfl⟩
  · show (db.instances.map _).length = _
    rw [List.length_map]


/-- C7 (what the code does): `UpdateInstanceStatus` with a UUID that matches no row affects
zero rows and returns `nil`, the database unchanged; the number of affected rows is not
looked at.  `UpdateInstance` and `DeleteInstance` return an error for the same UUID. -/
theorem C7_update_status_of_missing_uuid_returns_nil :
    (∀ r ∈ (sampleDB [rowA] []).instances, r.uuid ≠ UUID.ofByte 9) ∧
    (execUpdateStatus (sampleDB [rowA] []) 4 "importing" true (UUID.ofByte 9)).2 = 0 ∧
    UpdateInstanceStatus (sampleDB [rowA] []) (UUID.ofByte 9) 4 "importing" true
      = (sampleDB [rowA] [], none) ∧
    UpdateInstance sampleEnv (sampleDB [rowA] [])
        (.internal (sampleInstance (UUID.ofByte 9) "Ghost" 1 (-1)))
      = (sampleDB [rowA] [], some .sqlNoRows) ∧
    DeleteInstance sampleEnv (sampleDB [rowA] []) (UUID.ofByte 9)
      = (sampleDB [rowA] [], some (.noInstanceExists (UUID.ofByte 9))) := by
  decide

/-- C8 (amended): round trip.  Let `AddInstance` accept instance `i` (so the table had no
row of its UUID), with the UUID of `i` not the all-zero UUID (or the table empty).  Then a
following `GetInstance` of that UUID returns `i` itself if and only if the library encoders
reproduce the two time stamps and the two arrays of `i`; in that case the disks and NICs
arrays come back with the same elements in the same order, nil staying nil and empty staying
empty.  Whatever the encoders do, a record that `GetInstance` returns has the value of `i` in
every field other than the two time stamps and the two arrays. -/
theorem C8_add_then_get_round_trip (env : Env Time) (db db1 : DB) (i : InternalInstance Time)
    (hadd : AddInstance env db (.internal i) = (db1, none))
    (hz : i.UUID ≠ UUID.Nil ∨ db.instances = []) :
    (GetInstance env db1 i.UUID = .ok i ↔ EncodingRoundTrips env i) ∧
    (EncodingRoundTrips env i →
      ∀ j, GetInstance env db1 i.UUID = .ok j → j = i ∧ j.Disks = i.Disks ∧ j.NICs = i.NICs) ∧
    (∀ j, GetInstance env db1 i.UUID = .ok j →
      j.UUID = i.UUID ∧ j.InventoryPath = i.InventoryPath ∧
      j.MigrationStatus = i.MigrationStatus ∧
      j.MigrationStatusString = i.MigrationStatusString ∧
      j.SourceID = i.SourceID ∧ j.TargetID = i.TargetID ∧ j.BatchID = i.BatchID ∧
      j.Name = i.Name ∧ j.Architecture = i.Architecture ∧ j.OS = i.OS ∧
      j.OSVersion = i.OSVersion ∧ j.NumberCPUs = i.NumberCPUs ∧
      j.MemoryInMiB = i.MemoryInMiB ∧ j.UseLegacyBios = i.UseLegacyBios ∧
      j.SecureBootEnabled = i.SecureBootEnabled ∧ j.TPMPresent = i.TPMPresent ∧
      j.NeedsDiskImport = i.NeedsDiskImport) := by
  obtain ⟨row, hm, hget⟩ := GetInstance_after_add env hadd hz
  rw [hget]
  refine ⟨⟨encodingRoundTrips_of_scanRow env hm, scanRow_marshalInstance env hm⟩, ?_, ?_⟩
  · intro hrt j hj
    rw [scanRow_marshalInstance env hm hrt, Except.ok.injEq] at hj
    rw [← hj]
    exact ⟨rfl, rfl, rfl⟩
  · intro j hj
    obtain ⟨_, _, _, _, f1, f2, f3, f4, f5, f6, f7, f8, f9, f10, f11, f12, f13, f14, f15,
      f16, f17⟩ := marshalInstance_ok env hm
    obtain ⟨_, _, _, _, g1, g2, g3, g4, g5, g6, g7, g8, g9, g10, g11, g12, g13, g14, g15,
      g16, g17⟩ := scanRow_ok env hj
    exact ⟨g1.trans f1, g2.trans f2, g3.trans f3, g4.trans f4, g5.trans f5, g6.trans f6,
      g7.trans f7, g8.trans f8, g9.trans f9, g10.trans f10, g11.trans f11, g12.trans f12,
      g13.trans f13, g14.trans f14, g15.trans f15, g16.trans f16, g17.trans f17⟩

/-- Witness of C8 (amended): `instFull`, with two disks, two NICs and a wall clock time
stamp, is added to a table that holds `rowC` and read back. -/
theorem C8_add_then_get_round_trip_witness :
    AddInstance clockEnv (sampleDB [rowC] []) (.internal instFull)
      = (sampleDB [rowC, rowFull] [], none) ∧
    instFull.UUID ≠ UUID.Nil ∧
    instFull.Disks = some [diskOne, diskTwo] ∧ instFull.NICs = some [nicOne, nicTwo] ∧
    GetInstance clockEnv (sampleDB [rowC, rowFull] []) instFull.UUID = .ok instFull :=
  ⟨by decide, by decide, rfl, rfl,
   (C8_add_then_get_round_trip clockEnv (sampleDB [rowC] []) (sampleDB [rowC, rowFull] [])
      instFull (by decide) (Or.inl (by decide))).1.mpr
     ⟨fun s h => by
        have h2 : clockEnv.marshalTime instFull.LastUpdateFromSource
            = .ok "2024-11-06T14:23:16.439206188Z" := by decide
        rw [h2] at h; cases h; decide,
      fun s h => by
        have h2 : clockEnv.marshalTime instFull.LastManualUpdate
            = .ok "0001-01-01T00:00:00Z" := by decide
        rw [h2] at h; cases h; decide,
      fun s h => by
        have h2 : clockEnv.marshalDisks instFull.Disks = .ok textTwoDisks := by decide
        rw [h2] at h; cases h; decide,
      fun s h => by
        have h2 : clockEnv.marshalNICs instFull.NICs = .ok textTwoNICs := by decide
        rw [h2] at h; cases h; decide⟩⟩

/-- Counterexample to C8 as stated, in three parts.  First: the table holds `rowA` and no row
of the all-zero UUID; `AddInstance` accepts `instZ`, whose UUID is all-zero; the following
`GetInstance` of that UUID fails, because `getInstancesHelper` takes the all-zero UUID as "no
filter" and returns both rows.  Second: `AddInstance` accepts `instMonotonic`, whose time
stamp has a monotonic clock reading, as `time.Now()` returns it; `MarshalText` does not write
that reading, and the record read back differs in `LastUpdateFromSource`.  Third:
`AddInstance` accepts `instBadName`, whose disk name is a byte that is not valid UTF-8;
`json.Marshal` writes the replacement character for it, and the disk read back has another
name. -/
theorem C8_counterexample :
    ((∀ r ∈ (sampleDB [rowA] []).instances, r.uuid ≠ instZ.UUID) ∧
      AddInstance sampleEnv (sampleDB [rowA] []) (.internal instZ)
        = (sampleDB [rowA, rowZ] [], none) ∧
      getInstancesHelper sampleEnv (sampleDB [rowA, rowZ] []) instZ.UUID
        = .ok [instA, instZ] ∧
      GetInstance sampleEnv (sampleDB [rowA, rowZ] []) instZ.UUID
        = .error (.noInstanceExists UUID.Nil)) ∧
    (instMonotonic.UUID ≠ UUID.Nil ∧
      AddInstance clockEnv (sampleDB [] []) (.internal instMonotonic)
        = (sampleDB [rowMonotonic] [], none) ∧
      GetInstance clockEnv (sampleDB [rowMonotonic] []) instMonotonic.UUID
        = .ok instMonotonicRead ∧
      instMonotonicRead.LastUpdateFromSource ≠ instMonotonic.LastUpdateFromSource) ∧
    (instBadName.UUID ≠ UUID.Nil ∧
      AddInstance clockEnv (sampleDB [] []) (.internal instBadName)
        = (sampleDB [rowBadName] [], none) ∧
      GetInstance clockEnv (sampleDB [rowBadName] []) instBadName.UUID
        = .ok instBadNameRead ∧
      instBadNameRead.Disks ≠ instBadName.Disks) := by
  decide

/-- C9 (amended): in a table with pairwise distinct UUIDs, for a stored row that is not
assigned to a batch, not migrating, has no overrides row, and whose UUID is not the all-zero
UUID (or which is the only row), `DeleteInstance` succeeds, a following `GetInstance` of that
UUID fails, the table has exactly one row less, the remaining rows are the other rows,
unchanged and in their order, and the other tables are untouched. -/
theorem C9_delete_of_unassigned_instance (env : Env Time) (db : DB) (r : Row)
    (i : InternalInstance Time) (hn : UniqueUUIDs db) (hr : r ∈ db.instances)
    (hz : r.uuid ≠ UUID.Nil ∨ db.instances.length = 1) (hs : scanRow env r = .ok i)
    (hb : r.batchid = env.INVALID_DATABASE_ID) (hm : env.IsMigrating i = false)
    (ho : r.uuid ∉ db.overrides) :
    (DeleteInstance env db r.uuid).2 = none ∧
    GetInstance env (DeleteInstance env db r.uuid).1 r.uuid = .error (.noInstanceExists r.uuid) ∧
    (DeleteInstance env db r.uuid).1.instances.length + 1 = db.instances.length ∧
    (DeleteInstance env db r.uuid).1.instances
      = db.instances.filter (fun x => decide (x.uuid ≠ r.uuid)) ∧
    (∀ x, x ∈ (DeleteInstance env db r.uuid).1.instances ↔ (x ∈ db.instances ∧ x ≠ r)) ∧
    (DeleteInstance env db r.uuid).1.batches = db.batches ∧
    (DeleteInstance env db r.uuid).1.sources = db.sources ∧
    (DeleteInstance env db r.uuid).1.overrides = db.overrides ∧
    (DeleteInstance env db r.uuid).1.targets = db.targets := by
  rw [DeleteInstance_ok env hn hr hz hs hb hm ho]
  have hlen := length_filter_ne_of_unique hn hr
  refine ⟨rfl, ?_, hlen, rfl, ?_, rfl, rfl, rfl, rfl⟩
  · apply GetInstance_absent
    · intro x hx
      have := (List.mem_filter.mp hx).2
      simpa using this
    · rcases hz with h | h
      · exact Or.inl h
      · right
        have h0 : (db.instances.filter (fun x => decide (x.uuid ≠ r.uuid))).length = 0 := by
          omega
        exact List.length_eq_zero.mp h0
  · intro x
    show x ∈ db.instances.filter (fun x => decide (x.uuid ≠ r.uuid)) ↔ _
    rw [List.mem_filter]
    constructor
    · rintro ⟨hx, hne⟩
      refine ⟨hx, ?_⟩
      intro he
      rw [he] at hne
      simp at hne
    · rintro ⟨hx, hne⟩
      refine ⟨hx, ?_⟩
      simp only [ne_eq, decide_not, Bool.not_eq_true', decide_eq_false_iff_not]
      intro he
      have h1 := filter_uuid_of_nodup hn hr
      have h2 : x ∈ db.instances.filter (fun y => decide (y.uuid = r.uuid)) := by
        rw [List.mem_filter]; exact ⟨hx, by simpa using he⟩
      rw [h1, List.mem_singleton] at h2
      exact hne h2

/-- Witness of C9 (amended): `rowA` is deleted from a table that also holds `rowC`. -/
theorem C9_delete_of_unassigned_instance_witness :
    UniqueUUIDs (sampleDB [rowA, rowC] []) ∧ rowA ∈ (sampleDB [rowA, rowC] []).instances ∧
    rowA.uuid ≠ UUID.Nil ∧ scanRow sampleEnv rowA = .ok instA ∧
    rowA.batchid = sampleEnv.INVALID_DATABASE_ID ∧ sampleEnv.IsMigrating instA = false ∧
    rowA.uuid ∉ (sampleDB [rowA, rowC] []).overrides ∧
    (DeleteInstance sampleEnv (sampleDB [rowA, rowC] []) rowA.uuid).2 = none :=
  ⟨by decide, by decide, by decide, by decide, by decide, by decide, by decide,
   (C9_delete_of_unassigned_instance sampleEnv (sampleDB [rowA, rowC] []) rowA instA
      (by decide) (by decide) (Or.inl (by decide)) (by decide) (by decide) (by decide)
      (by decide)).1⟩

/-- Counterexample to C9 as stated, in tables with pairwise distinct UUIDs.  First: `rowZ`
has the all-zero UUID, is not assigned and not migrating, yet `DeleteInstance` of its UUID
fails, because `GetInstance` reads both rows.  Second: `rowA` is not assigned and not
migrating but has an overrides row, and the `DELETE` statement is refused. -/
theorem C9_counterexample :
    (rowZ ∈ (sampleDB [rowA, rowZ] []).instances ∧ UniqueUUIDs (sampleDB [rowA, rowZ] []) ∧
      scanRow sampleEnv rowZ = .ok instZ ∧
      instZ.BatchID = sampleEnv.INVALID_DATABASE_ID ∧ sampleEnv.IsMigrating instZ = false ∧
      DeleteInstance sampleEnv (sampleDB [rowA, rowZ] []) rowZ.uuid
        = (sampleDB [rowA, rowZ] [], some (.noInstanceExists UUID.Nil))) ∧
    (rowA ∈ (sampleDB [rowA] [UUID.ofByte 1]).instances ∧
      scanRow sampleEnv rowA = .ok instA ∧
      instA.BatchID = sampleEnv.INVALID_DATABASE_ID ∧ sampleEnv.IsMigrating instA = false ∧
      DeleteInstance sampleEnv (sampleDB [rowA] [UUID.ofByte 1]) rowA.uuid
        = (sampleDB [rowA] [UUID.ofByte 1],
           some (.sqlConstraint "FOREIGN KEY constraint failed"))) := by
  decide

/-- C10: when no row of the table has UUID `u`, `DeleteInstance` of `u` and `UpdateInstance`
of any record whose UUID is `u` both return an error, and the database they return is the
one they were given. -/
theorem C10_missing_uuid_delete_and_update_fail (env : Env Time) (db : DB) (u : UUID)
    (i : Instance Time) (hu : ∀ r ∈ db.instances, r.uuid ≠ u) (hi : i.GetUUID = u) :
    (∃ e, DeleteInstance env db u = (db, some e)) ∧
    (∃ e, UpdateInstance env db i = (db, some e)) := by
  constructor
  · unfold DeleteInstance
    cases hg : GetInstance env db u with
    | error e => exact ⟨e, rfl⟩
    | ok x =>
      by_cases hc : x.BatchID ≠ env.INVALID_DATABASE_ID ∨ env.IsMigrating x = true
      · exact ⟨.cannotDelete x.Name, by simp only [if_pos hc]⟩
      · refine ⟨.cantDelete u, ?_⟩
        simp only [if_neg hc, execDelete_missing hu, if_true]
  · refine ⟨.sqlNoRows, ?_⟩
    unfold UpdateInstance
    rw [hi, queryBatchid_missing hu]

/-- Witness of C10: no row of the table has the UUID with first byte 9. -/
theorem C10_missing_uuid_delete_and_update_fail_witness :
    (∀ r ∈ (sampleDB [rowA, rowC] []).instances, r.uuid ≠ UUID.ofByte 9) ∧
    (∃ e, DeleteInstance sampleEnv (sampleDB [rowA, rowC] []) (UUID.ofByte 9)
        = (sampleDB [rowA, rowC] [], some e)) ∧
    (∃ e, UpdateInstance sampleEnv (sampleDB [rowA, rowC] [])
        (.internal (sampleInstance (UUID.ofByte 9) "Ghost" 1 (-1)))
        = (sampleDB [rowA, rowC] [], some e)) :=
  ⟨by decide,
   C10_missing_uuid_delete_and_update_fail sampleEnv (sampleDB [rowA, rowC] []) (UUID.ofByte 9)
     (.internal (sampleInstance (UUID.ofByte 9) "Ghost" 1 (-1))) (by decide) rfl⟩

/-- C11 (amended): for every instance whose source id references no row of table `sources`,
`AddInstance` fails and returns the database it was given, so no instance row is added.  The
error is never of class `ValidationError`: it is the error of a marshalling call or the
constraint error of the `INSERT` statement, returned as it is; for a record that marshals and
whose UUID is new it is the foreign-key error, of class `ConstraintViolation`. -/
theorem C11_add_with_missing_source_fails (env : Env Time) (db : DB) (i : InternalInstance Time)
    (hsrc : i.SourceID ∉ db.sources) :
    (∃ e, AddInstance env db (.internal i) = (db, some e) ∧ e.errClass ≠ .ValidationError) ∧
    (∀ row, marshalInstance env i = .ok row → (∀ x ∈ db.instances, x.uuid ≠ i.UUID) →
      AddInstance env db (.internal i)
        = (db, some (.sqlConstraint "FOREIGN KEY constraint failed")) ∧
      (Err.sqlConstraint "FOREIGN KEY constraint failed").errClass = .ConstraintViolation) := by
  constructor
  · cases hm : marshalInstance env i with
    | error e =>
      refine ⟨e, ?_, Err.errClass_ne_validation e⟩
      unfold AddInstance
      simp only [hm]
    | ok row =>
      have hs : row.sourceid ∉ db.sources := by
        rw [(marshalInstance_ok env hm).2.2.2.2.2.2.2.2.1]; exact hsrc
      obtain ⟨e, he⟩ := execInsert_error_of_missing_source hs
      refine ⟨e, ?_, Err.errClass_ne_validation e⟩
      rw [AddInstance_of_marshal env hm, he]
  · intro row hm hnew
    have hu : row.uuid = i.UUID := (marshalInstance_ok env hm).2.2.2.2.1
    have hs : row.sourceid ∉ db.sources := by
      rw [(marshalInstance_ok env hm).2.2.2.2.2.2.2.2.1]; exact hsrc
    refine ⟨?_, rfl⟩
    rw [AddInstance_of_marshal env hm, execInsert_missing_source (by rw [hu]; exact hnew) hs]

/-- Witness of C11 (amended): the sample table `sources` holds id 1 only; the instance
refers to source 9. -/
theorem C11_add_with_missing_source_fails_witness :
    instNoSource.SourceID ∉ (sampleDB [rowC] []).sources ∧
    ∃ e, AddInstance sampleEnv (sampleDB [rowC] []) (.internal instNoSource)
        = (sampleDB [rowC] [], some e) ∧ e.errClass ≠ .ValidationError :=
  ⟨by decide,
   (C11_add_with_missing_source_fails sampleEnv (sampleDB [rowC] []) instNoSource
      (by decide)).1⟩

/-- Counterexample to C11 as stated: the instance refers to a source that does not exist;
`AddInstance` fails and adds no row, but the error is the constraint error of the `INSERT`
statement, of class `ConstraintViolation`, not a `ValidationError`. -/
theorem C11_counterexample :
    instNoSource.SourceID ∉ (sampleDB [] []).sources ∧
    AddInstance sampleEnv (sampleDB [] []) (.internal instNoSource)
      = (sampleDB [] [], some (.sqlConstraint "FOREIGN KEY constraint failed")) ∧
    (Err.sqlConstraint "FOREIGN KEY constraint failed").errClass = .ConstraintViolation ∧
    (Err.sqlConstraint "FOREIGN KEY constraint failed").errClass ≠ .ValidationError := by
  decide

/-- C12 (amended): when the table already holds a row with the UUID of instance `i`,
`AddInstance` of `i` fails and returns the database it was given.  When the record marshals,
so that the `INSERT` statement is reached, the error is the uniqueness error of the statement,
of class `ConstraintViolation`.  When the record does not marshal, the error is the one of the
library call, which is not of class `ConstraintViolation`; a value of another type than
`InternalInstance` is refused before that, also with an error that is not of that class.  A
table with pairwise distinct UUIDs has pairwise distinct UUIDs after every call of
`AddInstance`. -/
theorem C12_duplicate_uuid_is_refused (env : Env Time) (db : DB) (i : InternalInstance Time)
    (hdup : ∃ r ∈ db.instances, r.uuid = i.UUID) :
    (∃ e, AddInstance env db (.internal i) = (db, some e)) ∧
    (∀ row, marshalInstance env i = .ok row →
      AddInstance env db (.internal i)
        = (db, some (.sqlConstraint "UNIQUE constraint failed: instances.uuid"))) ∧
    (Err.sqlConstraint "UNIQUE constraint failed: instances.uuid").errClass
      = .ConstraintViolation ∧
    (∀ e, marshalInstance env i = .error e →
      AddInstance env db (.internal i) = (db, some e) ∧ (∃ m, e = .library m) ∧
      e.errClass = .Other) ∧
    (∀ name, AddInstance env db (.other i.UUID name) = (db, some .notInternalInstance) ∧
      Err.notInternalInstance.errClass = .Other) ∧
    (UniqueUUIDs db → ∀ j, UniqueUUIDs (AddInstance env db j).1) := by
  have h := AddInstance_duplicate env hdup
  refine ⟨?_, ?_, rfl, ?_, fun _ => ⟨rfl, rfl⟩, fun hn j => AddInstance_keeps_unique env hn j⟩
  · cases hm : marshalInstance env i with
    | error e => rw [hm] at h; exact ⟨_, h⟩
    | ok row => rw [hm] at h; exact ⟨_, h⟩
  · intro row hm
    rw [hm] at h
    exact h
  · intro e hm
    obtain ⟨m, he⟩ := marshalInstance_error env hm
    rw [hm] at h
    refine ⟨h, ⟨m, he⟩, ?_⟩
    rw [he]
    rfl

/-- Witness of C12 (amended): `instA` is added to a table that holds `rowA`. -/
theorem C12_duplicate_uuid_is_refused_witness :
    (∃ r ∈ (sampleDB [rowA, rowC] []).instances, r.uuid = instA.UUID) ∧
    marshalInstance sampleEnv instA = .ok rowA ∧
    AddInstance sampleEnv (sampleDB [rowA, rowC] []) (.internal instA)
      = (sampleDB [rowA, rowC] [],
         some (.sqlConstraint "UNIQUE constraint failed: instances.uuid")) :=
  ⟨by decide, by decide,
   (C12_duplicate_uuid_is_refused sampleEnv (sampleDB [rowA, rowC] []) instA
      (by decide)).2.1 rowA (by decide)⟩

/-- Counterexample to C12 as stated: the table holds `rowFull`; `instYear10000` has the UUID
of that row and a time stamp in the year 10000, which `MarshalText` refuses.  `AddInstance`
returns the error of `MarshalText`, which is not of class `ConstraintViolation`; the
statement is not reached. -/
theorem C12_counterexample :
    (∃ r ∈ (sampleDB [rowFull] []).instances, r.uuid = instYear10000.UUID) ∧
    AddInstance clockEnv (sampleDB [rowFull] []) (.internal instYear10000)
      = (sampleDB [rowFull] [],
         some (.library "Time.MarshalText: year outside of range [0,9999]")) ∧
    (Err.library "Time.MarshalText: year outside of range [0,9999]").errClass
      ≠ .ConstraintViolation :=
  ⟨by decide, rfl, by decide⟩

/-- C13: for a source of the generic type `SOURCETYPE_COMMON` (the constants being ordered,
`SOURCETYPE_COMMON ≤ SOURCETYPE_VMWARE`), `Source.Validate` returns no error if and only if
the id is not negative, the name is not empty, the properties are not nil and
`json.Unmarshal` accepts them as JSON. -/
theorem C13_validate_common (env : ValidateEnv) (s : Source)
    (horder : env.SOURCETYPE_COMMON ≤ env.SOURCETYPE_VMWARE)
    (htype : s.SourceType = env.SOURCETYPE_COMMON) :
    Source.Validate env s = none ↔
      (0 ≤ s.ID ∧ s.Name ≠ "" ∧ ∃ p, s.Properties = some p ∧ env.unmarshalAny p = none) := by
  constructor
  · intro h
    obtain ⟨hid, hname, hlo, hhi, p, hp⟩ := Source.Validate_none env s h
    refine ⟨hid, hname, p, hp, ?_⟩
    rw [Source.Validate_of_checks env s hid hname hlo hhi, hp] at h
    dsimp only at h
    rw [if_pos htype] at h
    exact (validateSourceTypeCommon_none env p).mp h
  · rintro ⟨hid, hname, p, hp, hj⟩
    rw [Source.Validate_of_checks env s hid hname (le_of_eq htype.symm) (by rw [htype]; exact horder),
      hp]
    dsimp only
    rw [if_pos htype]
    exact (validateSourceTypeCommon_none env p).mpr hj

/-- Witness of C13: the generic sample source with an empty JSON object is accepted. -/
theorem C13_validate_common_witness :
    sampleValidateEnv.SOURCETYPE_COMMON ≤ sampleValidateEnv.SOURCETYPE_VMWARE ∧
    sourceCommon.SourceType = sampleValidateEnv.SOURCETYPE_COMMON ∧
    Source.Validate sampleValidateEnv sourceCommon = none :=
  ⟨by decide, by decide,
   (C13_validate_common sampleValidateEnv sourceCommon (by decide) (by decide)).mpr
     ⟨by decide, by decide, asciiBytes "\x7b\x7d", by decide, by decide⟩⟩

/-- C14: for a source of type `SOURCETYPE_VMWARE` (the constants being ordered,
`SOURCETYPE_COMMON < SOURCETYPE_VMWARE`), `Source.Validate` returns no error if and only if
the id is not negative, the name is not empty, the properties are not nil and decode into the
VMware properties, `url.Parse` accepts the decoded endpoint, and the decoded user name and
password are both not empty. -/
theorem C14_validate_vmware (env : ValidateEnv) (s : Source)
    (horder : env.SOURCETYPE_COMMON < env.SOURCETYPE_VMWARE)
    (htype : s.SourceType = env.SOURCETYPE_VMWARE) :
    Source.Validate env s = none ↔
      (0 ≤ s.ID ∧ s.Name ≠ "" ∧
        ∃ p props, s.Properties = some p ∧ env.unmarshalVMware p = .ok props ∧
          env.urlParse props.Endpoint = none ∧ props.Username ≠ "" ∧ props.Password ≠ "") := by
  have hne : ¬ s.SourceType = env.SOURCETYPE_COMMON := by
    rw [htype]; exact ne_of_gt horder
  constructor
  · intro h
    obtain ⟨hid, hname, hlo, hhi, p, hp⟩ := Source.Validate_none env s h
    rw [Source.Validate_of_checks env s hid hname hlo hhi, hp] at h
    dsimp only at h
    rw [if_neg hne, if_pos htype] at h
    obtain ⟨props, hd, hu, h1, h2⟩ := (validateSourceTypeVMware_none env p).mp h
    exact ⟨hid, hname, p, props, hp, hd, hu, h1, h2⟩
  · rintro ⟨hid, hname, p, props, hp, hd, hu, h1, h2⟩
    rw [Source.Validate_of_checks env s hid hname (by rw [htype]; exact le_of_lt horder)
      (le_of_eq htype), hp]
    dsimp only
    rw [if_neg hne, if_pos htype]
    exact (validateSourceTypeVMware_none env p).mpr ⟨props, hd, hu, h1, h2⟩

/-- Witness of C14: the VMware sample source is accepted, and the same source with
properties that decode to an empty user name is not. -/
theorem C14_validate_vmware_witness :
    sampleValidateEnv.SOURCETYPE_COMMON < sampleValidateEnv.SOURCETYPE_VMWARE ∧
    sourceVMware.SourceType = sampleValidateEnv.SOURCETYPE_VMWARE ∧
    Source.Validate sampleValidateEnv sourceVMware = none :=
  ⟨by decide, by decide,
   (C14_validate_vmware sampleValidateEnv sourceVMware (by decide) (by decide)).mpr
     ⟨by decide, by decide, asciiBytes "vmware",
      ⟨"https://vcenter.example", "admin", "secret"⟩,
      by decide, by decide, by decide, by decide, by decide⟩⟩

/-- C15: with the two type constants adjacent (`SOURCETYPE_VMWARE = SOURCETYPE_COMMON + 1`),
a source whose type is below `SOURCETYPE_COMMON` or above `SOURCETYPE_VMWARE` gets an error
from `Source.Validate` whatever its other fields are, and a source that `Source.Validate`
accepts has non-nil properties that the validator of its own type accepted: no type in the
range passes without its check. -/
theorem C15_validate_dispatch (env : ValidateEnv) (s : Source)
    (hadj : env.SOURCETYPE_VMWARE = env.SOURCETYPE_COMMON + 1) :
    ((s.SourceType < env.SOURCETYPE_COMMON ∨ s.SourceType > env.SOURCETYPE_VMWARE) →
      ∃ e, Source.Validate env s = some e) ∧
    (Source.Validate env s = none →
      ∃ p, s.Properties = some p ∧
        ((s.SourceType = env.SOURCETYPE_COMMON ∧ s.SourceType ≠ env.SOURCETYPE_VMWARE ∧
            validateSourceTypeCommon env p = none) ∨
         (s.SourceType = env.SOURCETYPE_VMWARE ∧ s.SourceType ≠ env.SOURCETYPE_COMMON ∧
            validateSourceTypeVMware env p = none))) := by
  constructor
  · intro hout
    cases hv : Source.Validate env s with
    | some e => exact ⟨e, rfl⟩
    | none =>
      obtain ⟨_, _, hlo, hhi, _⟩ := Source.Validate_none env s hv
      rcases hout with h | h
      · exact absurd hlo (not_le.mpr h)
      · exact absurd hhi (not_le.mpr h)
  · intro h
    obtain ⟨hid, hname, hlo, hhi, p, hp⟩ := Source.Validate_none env s h
    rw [Source.Validate_of_checks env s hid hname hlo hhi, hp] at h
    dsimp only at h
    refine ⟨p, hp, ?_⟩
    by_cases hc : s.SourceType = env.SOURCETYPE_COMMON
    · rw [if_pos hc] at h
      exact Or.inl ⟨hc, by omega, h⟩
    · have hv : s.SourceType = env.SOURCETYPE_VMWARE := by omega
      rw [if_neg hc, if_pos hv] at h
      exact Or.inr ⟨hv, hc, h⟩

/-- Witness of C15: the sample constants 1 and 2 are adjacent; type 0 is refused. -/
theorem C15_validate_dispatch_witness :
    sampleValidateEnv.SOURCETYPE_VMWARE = sampleValidateEnv.SOURCETYPE_COMMON + 1 ∧
    ∃ e, Source.Validate sampleValidateEnv { sourceCommon with SourceType := 0 } = some e :=
  ⟨by decide,
   (C15_validate_dispatch sampleValidateEnv { sourceCommon with SourceType := 0 }
      (by decide)).1 (Or.inl (by decide))⟩

/-- C16: every error that `Source.Validate` returns is an `ErrValidation` value made by
`NewValidationErrf`; the errors of the decoders and of `url.Parse` are not returned as they
are but put into such a value. -/
theorem C16_validate_errors_are_validation_errors (env : ValidateEnv) (s : Source)
    (e : MigrationErr) (h : Source.Validate env s = some e) :
    e.isErrValidation = true ∧ ∃ format args, e = NewValidationErrf format args := by
  have key : e.isErrValidation = true := by
    unfold Source.Validate at h
    by_cases h1 : s.ID < 0
    · rw [if_pos h1] at h
      simp only [Option.some.injEq] at h
      rw [← h]; rfl
    · rw [if_neg h1] at h
      by_cases h2 : s.Name = ""
      · rw [if_pos h2] at h
        simp only [Option.some.injEq] at h
        rw [← h]; rfl
      · rw [if_neg h2] at h
        by_cases h3 : s.SourceType < env.SOURCETYPE_COMMON ∨
            s.SourceType > env.SOURCETYPE_VMWARE
        · rw [if_pos h3] at h
          simp only [Option.some.injEq] at h
          rw [← h]; rfl
        · rw [if_neg h3] at h
          cases hp : s.Properties with
          | none =>
            rw [hp] at h
            simp only [Option.some.injEq] at h
            rw [← h]; rfl
          | some p =>
            rw [hp] at h
            dsimp only at h
            by_cases hc : s.SourceType = env.SOURCETYPE_COMMON
            · rw [if_pos hc] at h
              cases hv : validateSourceTypeCommon env p with
              | none => rw [hv] at h; cases h
              | some e2 =>
                rw [hv] at h
                simp only [Option.some.injEq] at h
                rw [← h]
                exact validateSourceTypeCommon_isErrValidation env p e2 hv
            · rw [if_neg hc] at h
              by_cases hw : s.SourceType = env.SOURCETYPE_VMWARE
              · rw [if_pos hw] at h
                cases hv : validateSourceTypeVMware env p with
                | none => rw [hv] at h; cases h
                | some e2 =>
                  rw [hv] at h
                  simp only [Option.some.injEq] at h
                  rw [← h]
                  exact validateSourceTypeVMware_isErrValidation env p e2 hv
              · rw [if_neg hw] at h
                cases h
  refine ⟨key, ?_⟩
  cases e with
  | ErrValidation format args => exact ⟨format, args, rfl⟩
  | library msg => cases key

/-- Witness of C16: properties that are not JSON give an `ErrValidation` value that carries
the text of the decoding error. -/
theorem C16_validate_errors_are_validation_errors_witness :
    Source.Validate sampleValidateEnv { sourceCommon with Properties := some (asciiBytes "x") }
      = some (NewValidationErrf "Invalid properties for common type: %v"
          [.str "invalid character"]) ∧
    (NewValidationErrf "Invalid properties for common type: %v"
        [.str "invalid character"]).isErrValidation = true :=
  ⟨by decide,
   (C16_validate_errors_are_validation_errors sampleValidateEnv
      { sourceCommon with Properties := some (asciiBytes "x") }
      (NewValidationErrf "Invalid properties for common type: %v" [.str "invalid character"])
      (by decide)).1⟩

/-- C17: when the transaction was begun and `f` returns the error `e`, `Transaction` returns
`e` itself, whether the rollback it then attempts succeeds or fails. -/
theorem C17_transaction_returns_error_of_f (w : TxRun) (e : GoErr) (hb : w.beginTx = none)
    (hf : w.f = some e) :
    (Transaction w).2 = some e ∧ TxEvent.rollback ∈ (Transaction w).1 := by
  obtain ⟨ht, hr⟩ := Transaction_f_failed w e hb hf
  refine ⟨hr, ?_⟩
  rcases ht with h | h <;> rw [h] <;> decide

/-- Witness of C17, once with a rollback that succeeds and once with one that fails. -/
theorem C17_transaction_returns_error_of_f_witness :
    (Transaction ⟨none, some (.msg "disk full"), none, none⟩).2 = some (.msg "disk full") ∧
    (Transaction ⟨none, some (.msg "disk full"), none, some (.msg "no transaction")⟩).2
      = some (.msg "disk full") :=
  ⟨(C17_transaction_returns_error_of_f ⟨none, some (.msg "disk full"), none, none⟩
      (.msg "disk full") rfl rfl).1,
   (C17_transaction_returns_error_of_f
      ⟨none, some (.msg "disk full"), none, some (.msg "no transaction")⟩
      (.msg "disk full") rfl rfl).1⟩

/-- C18: in every run of `Transaction`, `f` is called at most once, and only when
`db.BeginTx` returned no error and after that call; `tx.Commit` is called if and only if `f`
was called and returned nil; when `f` returns an error the rollback is attempted and
`tx.Commit` is not called. -/
theorem C18_transaction_all_or_nothing (w : TxRun) :
    (Transaction w).1.count .callF ≤ 1 ∧
    (TxEvent.callF ∈ (Transaction w).1 →
      w.beginTx = none ∧ (Transaction w).1.take 2 = [.beginTx, .callF]) ∧
    (TxEvent.commit ∈ (Transaction w).1 ↔ (w.beginTx = none ∧ w.f = none)) ∧
    (w.beginTx = none → w.f ≠ none →
      TxEvent.rollback ∈ (Transaction w).1 ∧ TxEvent.commit ∉ (Transaction w).1) := by
  cases hb : w.beginTx with
  | some err =>
    obtain ⟨ht, _⟩ := Transaction_beginTx_failed w err hb
    rcases ht with h | h <;> rw [h] <;> simp
  | none =>
    cases hf : w.f with
    | some err =>
      obtain ⟨ht, _⟩ := Transaction_f_failed w err hb hf
      rcases ht with h | h <;> rw [h] <;> simp
    | none =>
      obtain ⟨ht, _⟩ := Transaction_f_ok w hb hf
      rw [ht]
      simp

/-- C19 (amended): an error of `db.BeginTx`, an error of `f`, and an error of `tx.Commit`
other than `sql.ErrTxDone` each make `Transaction` return a non-nil error; when `tx.Commit`
returns `sql.ErrTxDone` itself, `Transaction` returns nil. -/
theorem C19_transaction_reports_errors (w : TxRun) :
    (w.beginTx ≠ none → (Transaction w).2 ≠ none) ∧
    (w.beginTx = none → w.f ≠ none → (Transaction w).2 ≠ none) ∧
    (w.beginTx = none → w.f = none → w.commit ≠ none → w.commit ≠ some .ErrTxDone →
      (Transaction w).2 ≠ none) ∧
    (w.beginTx = none → w.f = none → w.commit = some .ErrTxDone → (Transaction w).2 = none) := by
  refine ⟨?_, ?_, ?_, ?_⟩
  · intro hb
    cases h : w.beginTx with
    | none => exact absurd h hb
    | some err =>
      rw [(Transaction_beginTx_failed w err h).2]
      simp
  · intro hb hf
    cases h : w.f with
    | none => exact absurd h hf
    | some err =>
      rw [(Transaction_f_failed w err hb h).2]
      simp
  · intro hb hf hc hd
    rw [(Transaction_f_ok w hb hf).2, if_neg hd]
    exact hc
  · intro hb hf hc
    rw [(Transaction_f_ok w hb hf).2, if_pos hc]

/-- Counterexample to C19 as stated: the transaction is begun, `f` returns nil and
`tx.Commit` reports the error `sql.ErrTxDone`; `Transaction` returns nil. -/
theorem C19_counterexample :
    (⟨none, none, some .ErrTxDone, none⟩ : TxRun).commit ≠ none ∧
    Transaction ⟨none, none, some .ErrTxDone, none⟩ = ([.beginTx, .callF, .commit], none) := by
  decide

/-- C20: for a request whose details name the protocol `unix`, `TLS.CheckPermission` returns
nil for every object, every entitlement and every list of fingerprints, the empty list
included. -/
theorem C20_unix_socket_has_full_access {Object Entitlement : Type}
    (certificateFingerprints : List String) (details : RequestDetails) (object : Object)
    (entitlement : Entitlement) (h : details.Protocol = "unix") :
    CheckPermission certificateFingerprints (.ok details) object entitlement = none := by
  unfold CheckPermission
  simp only [if_pos h]

/-- Witness of C20 with the empty list of fingerprints. -/
theorem C20_unix_socket_has_full_access_witness :
    (⟨"unix", "root"⟩ : RequestDetails).Protocol = "unix" ∧
    CheckPermission ([] : List String) (.ok ⟨"unix", "root"⟩) "instance" "can_edit" = none :=
  ⟨rfl, C20_unix_socket_has_full_access [] ⟨"unix", "root"⟩ "instance" "can_edit" rfl⟩

/-- C21: for a request whose details name the TLS protocol, `TLS.CheckPermission` returns nil
if and only if the user name of the details, which is the fingerprint of the certificate, is
an element of `certificateFingerprints`; otherwise it returns the error with status 403
"Client certificate not found".  With the empty list every such request is refused. -/
theorem C21_tls_request_needs_known_fingerprint {Object Entitlement : Type}
    (certificateFingerprints : List String) (details : RequestDetails) (object : Object)
    (entitlement : Entitlement) (h : details.Protocol = AuthenticationMethodTLS) :
    (CheckPermission certificateFingerprints (.ok details) object entitlement = none ↔
      details.Username ∈ certificateFingerprints) ∧
    (details.Username ∉ certificateFingerprints →
      CheckPermission certificateFingerprints (.ok details) object entitlement
        = some ⟨403, "Client certificate not found"⟩) ∧
    CheckPermission ([] : List String) (.ok details) object entitlement
      = some ⟨403, "Client certificate not found"⟩ := by
  have hunix : ¬ details.Protocol = "unix" := by
    rw [h]; decide
  have hcp : ∀ l : List String, CheckPermission l (.ok details) object entitlement
      = checkFingerprints details.Username l := by
    intro l
    unfold CheckPermission
    dsimp only
    rw [if_neg hunix, if_neg (not_not.mpr h)]
  refine ⟨?_, ?_, ?_⟩
  · rw [hcp]; exact checkFingerprints_none _ _
  · intro hn; rw [hcp]; exact checkFingerprints_some _ _ hn
  · rw [hcp]; rfl

/-- Witness of C21: a known fingerprint is let in. -/
theorem C21_tls_request_needs_known_fingerprint_witness :
    (⟨"tls", "abc"⟩ : RequestDetails).Protocol = AuthenticationMethodTLS ∧
    CheckPermission ["xyz", "abc"] (.ok ⟨"tls", "abc"⟩) "instance" "can_edit" = none ∧
    CheckPermission ([] : List String) (.ok ⟨"tls", "abc"⟩) "instance" "can_edit"
      = some ⟨403, "Client certificate not found"⟩ :=
  ⟨rfl,
   (C21_tls_request_needs_known_fingerprint ["xyz", "abc"] ⟨"tls", "abc"⟩ "instance" "can_edit"
      rfl).1.mpr (by decide),
   (C21_tls_request_needs_known_fingerprint ["xyz", "abc"] ⟨"tls", "abc"⟩ "instance" "can_edit"
      rfl).2.2⟩

/-- C22: with `ca` nil or `trustCACertificates` false, `CheckTrustState` returns (it does not
panic), and it returns true if and only if the time is not before `NotBefore`, not after
`NotAfter`, and the fingerprint of the certificate is an element of the trusted list; with
true it returns the fingerprint of the certificate, with false the empty string.  The two
readings of the clock are `now1` and `now2`; one evaluation time is the case where they are
equal. -/
theorem C22_check_trust_state (CertFingerprint : Certificate → String) (now1 now2 : Int)
    (cert : Certificate) (trusted : List String) (ca : Option Certificate)
    (trustCACertificates : Bool) (h : ca = none ∨ trustCACertificates = false) :
    ∃ ok fingerprint,
      CheckTrustState CertFingerprint now1 now2 cert trusted ca trustCACertificates
        = some (ok, fingerprint) ∧
      (ok = true ↔
        (¬ now1 < cert.NotBefore ∧ ¬ now2 > cert.NotAfter ∧ CertFingerprint cert ∈ trusted)) ∧
      (ok = true → fingerprint = CertFingerprint cert) ∧
      (ok = false → fingerprint = "") := by
  have hca : ¬ (ca ≠ none ∧ trustCACertificates = true) := by
    rintro ⟨h1, h2⟩
    rcases h with h | h
    · exact h1 h
    · rw [h] at h2; cases h2
  unfold CheckTrustState
  by_cases ht : now1 < cert.NotBefore ∨ now2 > cert.NotAfter
  · refine ⟨false, "", by rw [if_pos ht], ?_, ?_, ?_⟩
    · constructor
      · intro hf; cases hf
      · rintro ⟨h1, h2, _⟩
        rcases ht with h | h
        · exact absurd h h1
        · exact absurd h h2
    · intro hf; cases hf
    · intro _; rfl
  · have hs := matchFingerprint_spec (CertFingerprint cert) trusted
    refine ⟨(matchFingerprint (CertFingerprint cert) trusted).1,
      (matchFingerprint (CertFingerprint cert) trusted).2, ?_, ?_, hs.2.1, hs.2.2⟩
    · rw [if_neg ht]
      dsimp only
      rw [if_neg hca]
    · rw [hs.1]
      rw [not_or] at ht
      constructor
      · intro hm; exact ⟨ht.1, ht.2, hm⟩
      · intro hm; exact hm.2.2

/-- Witness of C22: at instant 150 the sample certificate is trusted by a list that holds
its fingerprint. -/
theorem C22_check_trust_state_witness :
    ((none : Option Certificate) = none ∨ true = false) ∧
    CheckTrustState sampleFingerprint 150 150 sampleCert ["xyz", "abc"] none true
      = some (true, "abc") ∧
    ∃ ok fingerprint,
      CheckTrustState sampleFingerprint 150 150 sampleCert ["xyz", "abc"] none true
        = some (ok, fingerprint) ∧
      (ok = true ↔
        (¬ (150 : Int) < sampleCert.NotBefore ∧ ¬ (150 : Int) > sampleCert.NotAfter ∧
          sampleFingerprint sampleCert ∈ ["xyz", "abc"])) ∧
      (ok = true → fingerprint = sampleFingerprint sampleCert) ∧
      (ok = false → fingerprint = "") :=
  ⟨Or.inl rfl, by decide,
   C22_check_trust_state sampleFingerprint 150 150 sampleCert ["xyz", "abc"] none true
     (Or.inl rfl)⟩

/-- C23: for a target that fails validation by a negative id, an empty name or an endpoint
that is not a valid URL, `TargetService.Create` and `TargetService.UpdateByID` return an
`ErrValidation` error together with the zero `Target`, whatever the repository would
return. -/
theorem C23_invalid_target_is_refused (env : TargetEnv) (t : Target)
    (h : t.ID < 0 ∨ t.Name = "" ∨
      ∃ p endpoint, t.Properties = some p ∧ env.unmarshalEndpoint p = .ok endpoint ∧
        env.urlParse endpoint ≠ none) :
    ∃ e, e.isErrValidation = true ∧
      (∀ repoCreate, TargetService.Create env repoCreate t = (Target.zero, some e)) ∧
      (∀ repoUpdateByID, TargetService.UpdateByID env repoUpdateByID t
        = (Target.zero, some e)) := by
  obtain ⟨e, he⟩ := Target.Validate_invalid env t h
  refine ⟨e, Target.Validate_isErrValidation env t e he, ?_, ?_⟩
  · intro repo
    unfold TargetService.Create
    rw [he]
  · intro repo
    unfold TargetService.UpdateByID
    rw [he]

/-- Witness of C23: a target whose endpoint starts with a colon. -/
theorem C23_invalid_target_is_refused_witness :
    (∃ p endpoint, ({ targetOne with Properties := some (asciiBytes ":|") } : Target).Properties
        = some p ∧ sampleTargetEnv.unmarshalEndpoint p = .ok endpoint ∧
        sampleTargetEnv.urlParse endpoint ≠ none) ∧
    ∃ e, e.isErrValidation = true ∧
      (∀ repoCreate, TargetService.Create sampleTargetEnv repoCreate
        { targetOne with Properties := some (asciiBytes ":|") } = (Target.zero, some e)) ∧
      (∀ repoUpdateByID, TargetService.UpdateByID sampleTargetEnv repoUpdateByID
        { targetOne with Properties := some (asciiBytes ":|") } = (Target.zero, some e)) :=
  ⟨⟨asciiBytes ":|", ":|", by decide, by decide, by decide⟩,
   C23_invalid_target_is_refused sampleTargetEnv
     { targetOne with Properties := some (asciiBytes ":|") }
     (Or.inr (Or.inr ⟨asciiBytes ":|", ":|", by decide, by decide, by decide⟩))⟩

/-- C25 (what the code does): `rollback` returns the error `reason` it was given also when
the rollback fails; it logs the failure and makes no new error.  First at a run whose
rollback fails, then for every run. -/
theorem C25_rollback_returns_reason_unwrapped :
    runRollbackFails.rollback ≠ none ∧
    rollback runRollbackFails (.msg "disk full")
      = ([.rollback, .warn], some (.msg "disk full")) ∧
    (∀ (w : TxRun) (reason : GoErr), (rollback w reason).2 = some reason) := by
  refine ⟨by decide, by decide, ?_⟩
  intro w reason
  unfold rollback
  cases w.rollback <;> rfl

/-- C26 (amended): when `db.BeginTx` fails with an error whose text contains "cannot start a
transaction within a transaction", `Transaction` calls `db.BeginTx` once, issues the
`ROLLBACK` of the leftover transaction and returns the error of `db.BeginTx` wrapped in
"Failed to begin transaction"; it does not begin again and does not call `f`. -/
theorem C26_leftover_transaction_is_rolled_back (w : TxRun) (err : GoErr)
    (hb : w.beginTx = some err)
    (hc : stringsContains err.Error.data
      "cannot start a transaction within a transaction".data = true) :
    (Transaction w).1 = [.beginTx, .execRollback] ∧
    (Transaction w).2 = some (.wrap "Failed to begin transaction: " err) ∧
    TxEvent.callF ∉ (Transaction w).1 ∧
    (Transaction w).1.count .beginTx = 1 := by
  have ht : Transaction w
      = ([.beginTx, .execRollback], some (.wrap "Failed to begin transaction: " err)) := by
    unfold Transaction
    rw [hb]
    dsimp only
    rw [if_pos hc]
  rw [ht]
  refine ⟨rfl, rfl, ?_, ?_⟩
  · show TxEvent.callF ∉ [TxEvent.beginTx, TxEvent.execRollback]
    decide
  · show List.count TxEvent.beginTx [TxEvent.beginTx, TxEvent.execRollback] = 1
    decide

/-- Witness of C26 (amended) at the run `runNested`. -/
theorem C26_leftover_transaction_is_rolled_back_witness :
    runNested.beginTx = some (.msg "cannot start a transaction within a transaction") ∧
    (Transaction runNested).1 = [.beginTx, .execRollback] ∧
    (Transaction runNested).2 = some (.wrap "Failed to begin transaction: "
      (.msg "cannot start a transaction within a transaction")) :=
  ⟨rfl,
   (C26_leftover_transaction_is_rolled_back runNested
      (.msg "cannot start a transaction within a transaction") rfl (by decide)).1,
   (C26_leftover_transaction_is_rolled_back runNested
      (.msg "cannot start a transaction within a transaction") rfl (by decide)).2.1⟩

/-- Counterexample to C26 as stated: `db.BeginTx` reports the leftover transaction and `f`
would return nil; `Transaction` issues the `ROLLBACK` and returns an error without a second
`db.BeginTx` and without calling `f`. -/
theorem C26_counterexample :
    runNested.f = none ∧
    Transaction runNested
      = ([.beginTx, .execRollback],
         some (.wrap "Failed to begin transaction: "
           (.msg "cannot start a transaction within a transaction"))) ∧
    TxEvent.callF ∉ (Transaction runNested).1 := by
  decide

/-- C27: for a request whose details name a protocol that is neither `unix` nor TLS,
`TLS.CheckPermission` returns nil, whatever the list of fingerprints and the user name. -/
theorem C27_other_protocols_have_full_access {Object Entitlement : Type}
    (certificateFingerprints : List String) (details : RequestDetails) (object : Object)
    (entitlement : Entitlement) (h1 : details.Protocol ≠ "unix")
    (h2 : details.Protocol ≠ AuthenticationMethodTLS) :
    CheckPermission certificateFingerprints (.ok details) object entitlement = none := by
  unfold CheckPermission
  dsimp only
  rw [if_neg h1, if_pos h2]

/-- Witness of C27 with the protocol `oidc` and an empty list of fingerprints. -/
theorem C27_other_protocols_have_full_access_witness :
    detailsOIDC.Protocol ≠ "unix" ∧ detailsOIDC.Protocol ≠ AuthenticationMethodTLS ∧
    CheckPermission ([] : List String) (.ok detailsOIDC) "instance" "can_edit" = none :=
  ⟨by decide, by decide,
   C27_other_protocols_have_full_access [] detailsOIDC "instance" "can_edit"
     (by decide) (by decide)⟩

/-- C28: with the same request details (or the same failure to extract them) and the same
list of fingerprints, `TLS.CheckPermission` returns the same result for any two objects and
any two entitlements. -/
theorem C28_decision_ignores_object_and_entitlement {Object Entitlement : Type}
    (certificateFingerprints : List String) (details : Except String RequestDetails)
    (object1 object2 : Object) (entitlement1 entitlement2 : Entitlement) :
    CheckPermission certificateFingerprints details object1 entitlement1
      = CheckPermission certificateFingerprints details object2 entitlement2 := by
  cases details with
  | error err => rfl
  | ok d => rfl

/-- C29 (amended): for a UUID `u` other than the all-zero UUID, `GetInstance` of `u`
succeeds exactly when the table has a single row of UUID `u` and that row unmarshals; the
returned instance is the one of that row and has UUID `u`.  `GetInstance` of the all-zero UUID
succeeds exactly when the table has a single row and that row unmarshals; the returned
instance is the one of that row, with the UUID of the row. -/
theorem C29_get_instance_returns_requested_uuid (env : Env Time) (db : DB) (u : UUID)
    (i : InternalInstance Time) :
    (u ≠ UUID.Nil →
      (GetInstance env db u = .ok i ↔
        ∃ r, selectByUUID db u = [r] ∧ scanRow env r = .ok i)) ∧
    (u ≠ UUID.Nil → GetInstance env db u = .ok i → i.UUID = u) ∧
    (GetInstance env db UUID.Nil = .ok i ↔ ∃ r, db.instances = [r] ∧ scanRow env r = .ok i) ∧
    (∀ r, scanRow env r = .ok i → i.UUID = r.uuid) := by
  refine ⟨?_, ?_, ?_, fun r hs => (scanRow_BatchID env hs).2.1⟩
  · intro hne
    constructor
    · intro h
      obtain ⟨r, hs, hcase⟩ := GetInstance_ok env h
      rcases hcase with ⟨_, hsel⟩ | ⟨hz, _⟩
      · exact ⟨r, hsel, hs⟩
      · exact absurd hz hne
    · rintro ⟨r, hsel, hs⟩
      rw [GetInstance_of_select env (r := r) (by rw [if_pos hne]; exact hsel)]
      exact hs
  · intro hne h
    obtain ⟨r, hs, hcase⟩ := GetInstance_ok env h
    have hu : i.UUID = r.uuid := (scanRow_BatchID env hs).2.1
    rcases hcase with ⟨_, hsel⟩ | ⟨hz, _⟩
    · have hm : r ∈ selectByUUID db u := by rw [hsel]; exact List.mem_singleton_self r
      unfold selectByUUID at hm
      rw [List.mem_filter] at hm
      rw [hu]
      simpa using hm.2
    · exact absurd hz hne
  · constructor
    · intro h
      obtain ⟨r, hs, hcase⟩ := GetInstance_ok env h
      rcases hcase with ⟨hne, _⟩ | ⟨_, hall⟩
      · exact absurd rfl hne
      · exact ⟨r, hall, hs⟩
    · rintro ⟨r, hall, hs⟩
      have hsel : (if UUID.Nil ≠ UUID.Nil then selectByUUID db UUID.Nil
          else selectAllOrdered db) = [r] := by
        rw [if_neg (not_not.mpr rfl)]
        unfold selectAllOrdered
        rw [hall]
        rfl
      rw [GetInstance_of_select env hsel]
      exact hs

/-- Witness of C29 (amended): the instance of `rowA` is read by its UUID from a table of two
rows, and by the all-zero UUID from a table that holds `rowA` only. -/
theorem C29_get_instance_returns_requested_uuid_witness :
    GetInstance sampleEnv (sampleDB [rowA, rowC] []) (UUID.ofByte 1) = .ok instA ∧
    instA.UUID = UUID.ofByte 1 ∧
    GetInstance sampleEnv (sampleDB [rowA] []) UUID.Nil = .ok instA :=
  ⟨by decide,
   (C29_get_instance_returns_requested_uuid sampleEnv (sampleDB [rowA, rowC] [])
      (UUID.ofByte 1) instA).2.1 (by decide) (by decide),
   (C29_get_instance_returns_requested_uuid sampleEnv (sampleDB [rowA] [])
      UUID.Nil instA).2.2.1.mpr ⟨rowA, rfl, by decide⟩⟩

/-- Counterexample to C29 as stated: the table holds the single row `rowA`; `GetInstance`
of the all-zero UUID succeeds and returns the instance of `rowA`, whose UUID is not the
all-zero UUID. -/
theorem C29_counterexample :
    GetInstance sampleEnv (sampleDB [rowA] []) UUID.Nil = .ok instA ∧
    instA.UUID ≠ UUID.Nil := by
  decide

/-- C30: `GetAllInstancesByState` fails exactly when `GetAllInstances` fails, with the same
error; otherwise it returns the instances of the result of `GetAllInstances` whose migration
status is the given one, in the same relative order, and that result is ordered by name. -/
theorem C30_instances_by_state (env : Env Time) (db : DB) (status : Int) :
    (∀ e, GetAllInstancesByState env db status = .error e ↔ GetAllInstances env db = .error e) ∧
    (∀ l, GetAllInstances env db = .ok l →
      OrderedByName l ∧
      GetAllInstancesByState env db status
        = .ok (l.filter (fun i => decide (i.MigrationStatus = status))) ∧
      ∃ l2, GetAllInstancesByState env db status = .ok l2 ∧ l2.Sublist l ∧
        OrderedByName l2 ∧ ∀ i, i ∈ l2 ↔ (i ∈ l ∧ i.MigrationStatus = status)) := by
  constructor
  · intro e
    unfold GetAllInstancesByState
    cases hg : GetAllInstances env db with
    | error e2 => simp
    | ok l => simp
  · intro l hl
    have hord := GetAllInstances_ordered env hl
    have hres : GetAllInstancesByState env db status
        = .ok (l.filter (fun i => decide (i.MigrationStatus = status))) := by
      unfold GetAllInstancesByState
      rw [hl]
    refine ⟨hord, hres, _, hres, List.filter_sublist _, ?_, ?_⟩
    · exact List.Pairwise.sublist (List.filter_sublist _) hord
    · intro i
      rw [List.mem_filter]
      simp

end Claims

end MigrationManager
